import Mathlib

/-
Verification of the true-shuffle extension (src/true-shuffle.js).

The file gives a shallow embedding of the extension's selection algorithm
and session state machine.  Track and context identities are opaque in the
source (string uris); here track identities are a type parameter with
decidable equality and context identities are strings.  The external
player (Spicetify) is modelled as an environment record of oracles: the
result of each external call (playlist load, play command, random draw) is
a field of the environment, indexed by a call counter where successive
calls may differ.  Asynchronous handlers are modelled as functions from
state and environment to the settled state, the request outcome, and the
list of commands issued to the external player.
-/

set_option linter.unusedSectionVars false
set_option linter.unnecessarySeqFocus false

namespace TrueShuffle

/-- Configuration constants of the extension (the CONFIG object).  The three
floating-point scoring constants enter only through the weight computation,
which the selector receives as a parameter, so they are recorded as exact
rationals. -/
structure Config where
  HISTORY_SIZE : Nat := 500
  NO_REPEAT_WINDOW : Nat := 100
  MIN_WEIGHT : ℚ := 5 / 100
  RECENCY_DECAY_RATE : ℚ := 15 / 100
  ARTIST_PENALTY : ℚ := 15 / 100
  ARTIST_SPACING : Nat := 2
  TRUE_SHUFFLE_EVERY : Nat := 3
deriving DecidableEq

/-- The default configuration of the source. -/
def CONFIG : Config := {}

/-- A playlist track as consumed by the selection logic: the opaque track
uri and the optional primary-artist uri.  The display-name fields of the
source (name, artistName) are never read by any modelled logic and are
omitted. -/
structure Track (α : Type) where
  uri : α
  artistUri : Option α
deriving DecidableEq

/-- A play-history entry, the shape stored by recordCurrentTrack and by the
failed-attempt unshift: a uri and an optional artist uri. -/
structure HistEntry (α : Type) where
  uri : α
  artistUri : Option α
deriving DecidableEq

variable {α : Type} [DecidableEq α]

/-- The weighted draw loop of pickNextTrack: subtract each weight from the
running random value and return the first track at which it becomes
non-positive. -/
def drawLoop : List (Track α × ℚ) → ℚ → Option (Track α)
  | [], _ => none
  | (t, w) :: rest, r => if r - w ≤ 0 then some t else drawLoop rest (r - w)

/-- The recentUris set of pickNextTrack (and of the songchange native-pick
check): the uris of the first NO_REPEAT_WINDOW history entries. -/
def recentUriList (cfg : Config) (history : List (HistEntry α)) : List α :=
  (history.take cfg.NO_REPEAT_WINDOW).map HistEntry.uri

/-- The candidates of pickNextTrack: the tracks whose uri is outside the
no-repeat window, falling back to the unfiltered list when the filter
empties the candidates. -/
def shuffleCandidates (cfg : Config) (tracks : List (Track α))
    (history : List (HistEntry α)) : List (Track α) :=
  if tracks.filter (fun t => decide (t.uri ∉ recentUriList cfg history)) = [] then tracks
  else tracks.filter (fun t => decide (t.uri ∉ recentUriList cfg history))

/-- The weighted-random draw of pickNextTrack over the already-weighted
candidates: scale the random value in [0,1) by the total weight, run the
subtraction loop, and fall back to the last candidate. -/
def weightedDraw (weighted : List (Track α × ℚ)) (rand01 : ℚ) : Option (Track α) :=
  match drawLoop weighted (rand01 * (weighted.map Prod.snd).sum) with
  | some t => some t
  | none => (weighted.getLast?).map Prod.fst

/-- pickNextTrack: null on an empty candidate list; the sole element of a
singleton list; otherwise hard-exclude tracks whose uri appears in the
first NO_REPEAT_WINDOW history entries (falling back to the unfiltered
list when that empties the candidates), weight the survivors, and perform
a weighted random draw with the last candidate as fallback.  The source's
calculateWeight computes a positive floating-point weight from the history
(recency decay via Math.exp, artist spacing penalty, MIN_WEIGHT clamp);
the claims settled here are independent of the weight values, so the
weight computation is a parameter, as is the Math.random draw in [0,1). -/
def pickNextTrack (cfg : Config) (calcWeight : Track α → List (HistEntry α) → ℚ)
    (rand01 : ℚ) (tracks : List (Track α)) (history : List (HistEntry α)) :
    Option (Track α) :=
  if tracks = [] then none
  else if tracks.length = 1 then tracks.head?
  else weightedDraw
    ((shuffleCandidates cfg tracks history).map (fun t => (t, calcWeight t history)))
    rand01

/-- recordCurrentTrack: the currently playing item is modelled as an
optional (uri, artist_uri) pair; when absent the function bails out;
otherwise it removes any entry with the same uri, prepends a fresh entry,
and truncates the history to HISTORY_SIZE. -/
def recordCurrentTrack (cfg : Config) (item : Option (α × Option α))
    (playHistory : List (HistEntry α)) : List (HistEntry α) :=
  match item with
  | none => playHistory
  | some (uri, artistUri) =>
    let h1 := playHistory.filter (fun e => decide (e.uri ≠ uri))
    let h2 := HistEntry.mk uri artistUri :: h1
    if cfg.HISTORY_SIZE < h2.length then h2.take cfg.HISTORY_SIZE else h2

/-- The failed-attempt insert of the retry loop: a plain unshift of the
failed track onto the play history, with no removal and no truncation. -/
def recordFailedAttempt (e : HistEntry α) (playHistory : List (HistEntry α)) :
    List (HistEntry α) :=
  e :: playHistory

/-- An abstract play-history operation: recording a track that started
playing, or recording a failed play attempt. -/
inductive HistOp (α : Type) where
  | record (uri : α) (artistUri : Option α)
  | failed (uri : α) (artistUri : Option α)
deriving DecidableEq

/-- Apply one history operation. -/
def applyHistOp (cfg : Config) (h : List (HistEntry α)) : HistOp α → List (HistEntry α)
  | .record uri a => recordCurrentTrack cfg (some (uri, a)) h
  | .failed uri a => recordFailedAttempt (HistEntry.mk uri a) h

/-- Apply a sequence of history operations, oldest first. -/
def applyHistOps (cfg : Config) (ops : List (HistOp α)) (h : List (HistEntry α)) :
    List (HistEntry α) :=
  ops.foldl (applyHistOp cfg) h

/-- The number of failed-attempt operations at the tail of an operation
sequence, i.e. since the last record operation. -/
def histExcess (ops : List (HistOp α)) : Nat :=
  ops.foldl (fun e op => match op with | .record _ _ => 0 | .failed _ _ => e + 1) 0

/-- The module-level mutable session state of the extension.  The external
player's output volume is included so that the mute/restore choreography
is part of the state.  The isActive toggle and the progress samples live
in the environment (they are read, never written, by the modelled
handlers). -/
structure TSState (α : Type) where
  playHistory : List (HistEntry α) := []
  navigationHistory : List α := []
  navigationIndex : Int := -1
  currentPlaylistUri : Option String := none
  currentPlaylistTracks : Option (List (Track α)) := none
  skipCounter : Nat := 0
  isNativePassSkip : Bool := false
  isHandlingAction : Bool := false
  lastPlayedByUsUri : Option α := none
  savedVolume : Option ℚ := none
  smoothSkipMuted : Bool := false
  volume : ℚ := 1
  lastContextUri : Option String := none
deriving DecidableEq

/-- Observable commands issued to the external player. -/
inductive Effect (α : Type) where
  | setVolume (v : ℚ)
  | play (uri : α)
  | nativeSkip
  | seekToStart
deriving DecidableEq

/-- muteForSkip: save the current volume on the first mute, then set the
output volume to zero. -/
def muteForSkip (s : TSState α) : TSState α × List (Effect α) :=
  let s1 := if s.smoothSkipMuted then s
            else { s with savedVolume := some s.volume, smoothSkipMuted := true }
  ({ s1 with volume := 0 }, [Effect.setVolume 0])

/-- restoreVolume: when muted and a saved volume exists, restore it and
clear the mute state; otherwise do nothing. -/
def restoreVolume (s : TSState α) : TSState α × List (Effect α) :=
  match s.savedVolume with
  | some v =>
    if s.smoothSkipMuted then
      ({ s with volume := v, smoothSkipMuted := false, savedVolume := none },
       [Effect.setVolume v])
    else (s, [])
  | none => (s, [])

/-- The HISTORY_SIZE bound of pushToNavigation: when the grown list
exceeds the bound, drop from the front so exactly HISTORY_SIZE entries
remain. -/
def boundNav (cfg : Config) (l : List α) : List α :=
  if cfg.HISTORY_SIZE < l.length then l.drop (l.length - cfg.HISTORY_SIZE) else l

/-- The truncate-and-append step of pushToNavigation: when the cursor is
not at the tail, discard everything after the cursor, then append the new
uri. -/
def pushNavList (uri : α) (s : TSState α) : List α :=
  (if s.navigationIndex < (s.navigationHistory.length : Int) - 1 then
      s.navigationHistory.take (s.navigationIndex + 1).toNat
    else s.navigationHistory) ++ [uri]

/-- pushToNavigation: bail out on a missing uri; truncate the forward
branch when the cursor is not at the tail; append; enforce the
HISTORY_SIZE bound by dropping from the front; in every case the cursor
ends at the tail of the resulting list (the source re-assigns
navigationIndex to length - 1 both after the append and after the bound
is applied). -/
def pushToNavigation (cfg : Config) (uri? : Option α) (s : TSState α) : TSState α :=
  match uri? with
  | none => s
  | some uri =>
    { s with navigationHistory := boundNav cfg (pushNavList uri s),
             navigationIndex := ((boundNav cfg (pushNavList uri s)).length : Int) - 1 }

/-- The external collaborators consulted during one skip request.
Successive external calls are indexed by a call counter so that distinct
play attempts and random draws may have distinct results. -/
structure SkipEnv (α : Type) where
  contextUri : Option String
  currentTrack : Option (α × Option α)
  loadResult : Option (List (Track α))
  playOk : Nat → α → Bool
  calcWeight : Track α → List (HistEntry α) → ℚ
  rand01 : Nat → ℚ

/-- ensurePlaylistLoaded: reload the cache when the context changed or no
cache exists; report whether a non-empty track list is now cached. -/
def ensurePlaylistLoaded (env : SkipEnv α) (s : TSState α) : TSState α × Bool :=
  match env.contextUri with
  | none => (s, false)
  | some ctx =>
    let s1 := if s.currentPlaylistUri ≠ some ctx ∨ s.currentPlaylistTracks = none then
                { s with currentPlaylistUri := some ctx,
                         currentPlaylistTracks := env.loadResult }
              else s
    (s1, match s1.currentPlaylistTracks with
         | some ts => decide (0 < ts.length)
         | none => false)

/-- playTrackInContext at external-call index k: mark lastPlayedByUsUri,
issue the play command, and restore the volume whether the command
succeeded or failed; on failure clear lastPlayedByUsUri. -/
def playTrackInContext (env : SkipEnv α) (k : Nat) (uri : α) (s : TSState α) :
    TSState α × Bool × List (Effect α) :=
  match env.contextUri with
  | none => (s, false, [])
  | some _ =>
    if env.playOk k uri then
      let s1 := { s with lastPlayedByUsUri := some uri }
      let (s2, tr) := restoreVolume s1
      (s2, true, Effect.play uri :: tr)
    else
      let s1 := { s with lastPlayedByUsUri := none }
      let (s2, tr) := restoreVolume s1
      (s2, false, Effect.play uri :: tr)

/-- How one forward-skip request resolved. -/
inductive ForwardOutcome (α : Type) where
  | dropped
  | aborted
  | navForward (uri : α)
  | nativePass
  | noTrack
  | picked (uri : α)
  | exhausted
deriving DecidableEq

/-- The bounded retry loop of the True-Shuffle pick (for attempt = 0..2 in
the source): pick a track, stop when none is available, play it; on
success push it to navigation history and stop; on failure unshift a
failed-attempt entry and retry with the next call index. -/
def shuffleAttempts (cfg : Config) (env : SkipEnv α) :
    Nat → Nat → TSState α → TSState α × ForwardOutcome α × List (Effect α)
  | 0, _, s => (s, .exhausted, [])
  | fuel + 1, k, s =>
    match pickNextTrack cfg env.calcWeight (env.rand01 k)
        (s.currentPlaylistTracks.getD []) s.playHistory with
    | none => (s, .noTrack, [])
    | some t =>
      let (s1, ok, tr) := playTrackInContext env k t.uri s
      if ok then
        (pushToNavigation cfg (some t.uri) s1, .picked t.uri, tr)
      else
        let s2 := { s1 with
          playHistory := recordFailedAttempt (HistEntry.mk t.uri t.artistUri) s1.playHistory }
        let (s3, out, tr2) := shuffleAttempts cfg env fuel (k + 1) s2
        (s3, out, tr ++ tr2)

/-- The phase of handleSkipForward after the navigation-replay branch:
count the skip, and either hand it to the native player (counter not
divisible by TRUE_SHUFFLE_EVERY: set the pending-native flag, release the
guard early, mute, schedule the native skip) or run the True-Shuffle
retry loop. -/
def skipCounterPhase (cfg : Config) (env : SkipEnv α) (k : Nat) (s : TSState α) :
    TSState α × ForwardOutcome α × List (Effect α) :=
  let s1 := { s with skipCounter := s.skipCounter + 1 }
  if s1.skipCounter % cfg.TRUE_SHUFFLE_EVERY ≠ 0 then
    let s2 := { s1 with isNativePassSkip := true, isHandlingAction := false }
    let (s3, tr) := muteForSkip s2
    (s3, .nativePass, tr ++ [Effect.nativeSkip])
  else
    let (s2, out, tr) := shuffleAttempts cfg env 3 k s1
    ({ s2 with isHandlingAction := false }, out, tr)

/-- handleSkipForward: drop on a held re-entrancy guard; ensure the
playlist is loaded (abort silently otherwise); record the departing track;
when the navigation cursor is not at the tail replay the next entry
forward, rolling the cursor back and falling through when that play
fails; otherwise run the counter phase.  The returned state is the
settled state after the deferred guard release has fired; the out-of-range
navigation read (impossible under the navigation invariant) is modelled
as a failed replay. -/
def handleSkipForward (cfg : Config) (env : SkipEnv α) (s : TSState α) :
    TSState α × ForwardOutcome α × List (Effect α) :=
  if s.isHandlingAction then (s, .dropped, [])
  else
    let s0 := { s with isHandlingAction := true }
    let (s1, loaded) := ensurePlaylistLoaded env s0
    if loaded = false then ({ s1 with isHandlingAction := false }, .aborted, [])
    else
      let s2 := { s1 with
        playHistory := recordCurrentTrack cfg env.currentTrack s1.playHistory }
      if s2.navigationIndex < (s2.navigationHistory.length : Int) - 1 then
        let idx1 : Int := s2.navigationIndex + 1
        match s2.navigationHistory[idx1.toNat]? with
        | some nextUri =>
          let (s3, ok, tr1) := playTrackInContext env 0 nextUri
            { s2 with navigationIndex := idx1 }
          if ok then ({ s3 with isHandlingAction := false }, .navForward nextUri, tr1)
          else
            let s4 := { s3 with navigationIndex := s3.navigationIndex - 1 }
            let (s5, out, tr2) := skipCounterPhase cfg env 1 s4
            (s5, out, tr1 ++ tr2)
        | none =>
          let s4 := { s2 with navigationIndex := idx1 - 1 }
          let (s5, out, tr2) := skipCounterPhase cfg env 1 s4
          (s5, out, tr2)
      else
        skipCounterPhase cfg env 0 s2

/-- The patched forward-skip entry points (Spicetify.Player.next and
PlayerAPI.skipToNext) in true-shuffle mode: mute, then run the forward
handler. -/
def onForwardSkipRequest (cfg : Config) (env : SkipEnv α) (s : TSState α) :
    TSState α × ForwardOutcome α × List (Effect α) :=
  let (s1, tr1) := muteForSkip s
  let (s2, out, tr2) := handleSkipForward cfg env s1
  (s2, out, tr1 ++ tr2)

/-- How one back-skip request resolved. -/
inductive BackOutcome (α : Type) where
  | dropped
  | steppedBack (uri? : Option α)
  | seekStart
deriving DecidableEq

/-- handleSkipBack: drop on a held guard; when the cursor is above its
floor, decrement it and play the entry at the new cursor, ignoring the
play result; otherwise seek the current track to its start. -/
def handleSkipBack (env : SkipEnv α) (s : TSState α) :
    TSState α × BackOutcome α × List (Effect α) :=
  if s.isHandlingAction then (s, .dropped, [])
  else
    let s0 := { s with isHandlingAction := true }
    if (0 : Int) < s0.navigationIndex then
      let idx1 : Int := s0.navigationIndex - 1
      let s1 := { s0 with navigationIndex := idx1 }
      match s1.navigationHistory[idx1.toNat]? with
      | some prevUri =>
        let (s2, _ok, tr) := playTrackInContext env 0 prevUri s1
        ({ s2 with isHandlingAction := false }, .steppedBack (some prevUri), tr)
      | none =>
        ({ s1 with isHandlingAction := false }, .steppedBack none, [])
    else
      ({ s0 with isHandlingAction := false }, .seekStart, [Effect.seekToStart])

/-- The signals read by the songchange listener. -/
structure SongEnv (α : Type) where
  currentUri : Option α
  currentArtistUri : Option α
  contextUri : Option String
  inTrueShuffleMode : Bool
  lastProgress : ℚ
  lastDuration : ℚ
  skipEnv : SkipEnv α

/-- How one songchange event was interpreted. -/
inductive SongOutcome (α : Type) where
  | ignoredHandling
  | nativeNoUri
  | nativeRejected
  | nativeAccepted (uri : α)
  | ownPlayAck
  | contextReset
  | autoAdvance (f : ForwardOutcome α)
  | ignored
deriving DecidableEq

/-- The songchange listener: ignore while handling; validate a pending
native pick (re-issue a muted native skip on a no-repeat collision, or
accept: push to navigation, record, restore volume); acknowledge our own
play; reset session state on a context change (seeding navigation with
the current track; the asynchronous playlist pre-load is modelled as
completing immediately); otherwise auto-advance when the previous track
was near its end. -/
def onSongChange (cfg : Config) (env : SongEnv α) (s : TSState α) :
    TSState α × SongOutcome α × List (Effect α) :=
  if s.isHandlingAction then (s, .ignoredHandling, [])
  else if s.isNativePassSkip then
    let s0 := { s with isNativePassSkip := false }
    match env.currentUri with
    | none => (s0, .nativeNoUri, [])
    | some u =>
      if u ∈ recentUriList cfg s0.playHistory then
        let s1 := { s0 with isNativePassSkip := true }
        let (s2, tr) := muteForSkip s1
        (s2, .nativeRejected, tr ++ [Effect.nativeSkip])
      else
        let s1 := pushToNavigation cfg (some u) s0
        let s2 := { s1 with
          playHistory := recordCurrentTrack cfg (some (u, env.currentArtistUri)) s1.playHistory }
        let (s3, tr) := restoreVolume s2
        (s3, .nativeAccepted u, tr)
  else if env.currentUri ≠ none ∧ env.currentUri = s.lastPlayedByUsUri then
    ({ s with lastPlayedByUsUri := none }, .ownPlayAck, [])
  else if env.contextUri ≠ s.lastContextUri then
    let s1 := { s with lastContextUri := env.contextUri,
                       currentPlaylistUri := none, currentPlaylistTracks := none,
                       skipCounter := 0, playHistory := [],
                       navigationHistory := [], navigationIndex := -1 }
    let s2 := pushToNavigation cfg env.currentUri s1
    let s3 := if (env.contextUri.getD "").startsWith "spotify:playlist:" then
                match env.skipEnv.loadResult with
                | some ts => { s2 with currentPlaylistUri := env.contextUri,
                                       currentPlaylistTracks := some ts }
                | none => s2
              else s2
    (s3, .contextReset, [])
  else if env.inTrueShuffleMode = false then (s, .ignored, [])
  else if 0 < env.lastDuration ∧ env.lastDuration - env.lastProgress < 5000 then
    let (s1, out, tr) := handleSkipForward cfg env.skipEnv s
    (s1, .autoAdvance out, tr)
  else (s, .ignored, [])

/-- The navigation-history invariant: the cursor is a valid index into the
sequence, and is -1 exactly when the sequence is empty. -/
def NavInv (s : TSState α) : Prop :=
  (s.navigationHistory = [] → s.navigationIndex = -1) ∧
  (s.navigationHistory ≠ [] →
    0 ≤ s.navigationIndex ∧ s.navigationIndex < s.navigationHistory.length)

instance (s : TSState α) : Decidable (NavInv s) := by
  unfold NavInv; infer_instance

/-- The number of play commands in an effect trace. -/
def countPlays : List (Effect α) → Nat
  | [] => 0
  | .play _ :: tr => countPlays tr + 1
  | _ :: tr => countPlays tr

/-- The trailing-failure count with an explicit accumulator, matching the
foldl of histExcess. -/
def histExcessFrom (e : Nat) (ops : List (HistOp α)) : Nat :=
  ops.foldl (fun e op => match op with | .record _ _ => 0 | .failed _ _ => e + 1) e

/-- The mute bookkeeping invariant: whenever the muted flag is set, a
saved volume exists for restoreVolume to restore. -/
def MutedInv (s : TSState α) : Prop :=
  s.smoothSkipMuted = true → s.savedVolume ≠ none

instance (s : TSState α) : Decidable (MutedInv s) := by
  unfold MutedInv; infer_instance

/-- A sequence of 501 failed-attempt recordings, starting from the empty
history. -/
def c1FailOps : List (HistOp Nat) := List.replicate 501 (HistOp.failed 0 none)

/-- Concrete inputs for the C4 scenario: candidates A=1, B=2, C=3, D=4,
history [1, 2, 3] (most recent first), and a no-repeat window of 2. -/
def c4cfg : Config := { NO_REPEAT_WINDOW := 2 }

def c4tracks : List (Track Nat) := [⟨1, none⟩, ⟨2, none⟩, ⟨3, none⟩, ⟨4, none⟩]

def c4hist : List (HistEntry Nat) := [⟨1, none⟩, ⟨2, none⟩, ⟨3, none⟩]

/-- Concrete inputs for the cadence scenario (C5): a fresh context with a
single playable track and an always-succeeding player. -/
def c5env : SkipEnv Nat := { contextUri := some "spotify:playlist:w", currentTrack := some (5, none), loadResult := some [⟨0, none⟩], playOk := fun _ _ => true, calcWeight := fun _ _ => 1, rand01 := fun _ => 0 }

def c5s0 : TSState Nat := { currentPlaylistUri := some "spotify:playlist:w", currentPlaylistTracks := some [⟨0, none⟩] }

def c5s1 : TSState Nat := (handleSkipForward CONFIG c5env c5s0).1

def c5s2 : TSState Nat := (handleSkipForward CONFIG c5env c5s1).1

/-- Concrete input for C7: cursor at position 1 inside a 3-entry
navigation history. -/
def c7s : TSState Nat := { navigationHistory := [10, 20, 30], navigationIndex := 1 }

/-- Concrete inputs for C8. -/
def c8s : TSState Nat := { navigationHistory := [1, 2], navigationIndex := 1 }

def c8env : SkipEnv Nat := { contextUri := some "spotify:playlist:z", currentTrack := some (1, none), loadResult := some [⟨1, none⟩], playOk := fun _ _ => true, calcWeight := fun _ _ => 1, rand01 := fun _ => 0 }

def c8senv : SongEnv Nat := { currentUri := some 4, currentArtistUri := none, contextUri := some "spotify:playlist:z", inTrueShuffleMode := true, lastProgress := 0, lastDuration := 0, skipEnv := c8env }

/-- Concrete inputs for C9 and for the C2 counterexample: a single-track
playlist whose play command always fails, with the skip counter at 2 so
the next skip runs the True-Shuffle retry loop. -/
def c2env : SkipEnv Nat := { contextUri := some "spotify:playlist:x", currentTrack := some (5, none), loadResult := some [⟨9, none⟩], playOk := fun _ _ => false, calcWeight := fun _ _ => 1, rand01 := fun _ => 0 }

def c2s : TSState Nat := { currentPlaylistUri := some "spotify:playlist:x", currentPlaylistTracks := some [⟨9, none⟩], skipCounter := 2, volume := 50 }

/-- Concrete inputs for the C2 amended-claim witness: as c2env but the
play command succeeds. -/
def c2wenv : SkipEnv Nat := { contextUri := some "spotify:playlist:x", currentTrack := some (5, none), loadResult := some [⟨9, none⟩], playOk := fun _ _ => true, calcWeight := fun _ _ => 1, rand01 := fun _ => 0 }

/-- Concrete inputs for C10: a back skip with the cursor at 2, and a
forward skip with the cursor one short of the tail, both against a player
whose play command always fails. -/
def c10s : TSState Nat := { navigationHistory := [1, 2, 3], navigationIndex := 2 }

def c10t : TSState Nat := { navigationHistory := [1, 2], navigationIndex := 0, currentPlaylistUri := some "spotify:playlist:x", currentPlaylistTracks := some [⟨9, none⟩] }

/-- Concrete inputs for C6: a pending native pick whose track collides
with the no-repeat window, while the output is muted with saved volume 1. -/
def c6s : TSState Nat := { playHistory := [⟨3, none⟩], isNativePassSkip := true, smoothSkipMuted := true, savedVolume := some 1, volume := 0 }

def c6env : SongEnv Nat := { currentUri := some 3, currentArtistUri := none, contextUri := some "spotify:playlist:x", inTrueShuffleMode := true, lastProgress := 0, lastDuration := 0, skipEnv := c2env }

theorem histExcess_eq_from (ops : List (HistOp α)) : histExcess ops = histExcessFrom 0 ops :=
  rfl

theorem recordCurrentTrack_length_le (cfg : Config) (item : α × Option α)
    (h : List (HistEntry α)) :
    (recordCurrentTrack cfg (some item) h).length ≤ cfg.HISTORY_SIZE := by
  obtain ⟨uri, a⟩ := item
  simp only [recordCurrentTrack]
  split
  · simp [List.length_take]
  · omega

theorem applyHistOps_length_le_from (cfg : Config) :
    ∀ (ops : List (HistOp α)) (h : List (HistEntry α)) (e : Nat),
      h.length ≤ cfg.HISTORY_SIZE + e →
      (applyHistOps cfg ops h).length ≤ cfg.HISTORY_SIZE + histExcessFrom e ops := by
  intro ops
  induction ops with
  | nil => intro h e he; simpa [applyHistOps, histExcessFrom] using he
  | cons op rest ih =>
    intro h e he
    cases op with
    | record u a =>
      have h1 : (applyHistOp cfg h (HistOp.record u a)).length ≤ cfg.HISTORY_SIZE + 0 := by
        simpa [applyHistOp] using recordCurrentTrack_length_le cfg (u, a) h
      simpa [applyHistOps, histExcessFrom, applyHistOp] using ih _ 0 h1
    | failed u a =>
      have h1 : (applyHistOp cfg h (HistOp.failed u a)).length ≤ cfg.HISTORY_SIZE + (e + 1) := by
        simp only [applyHistOp, recordFailedAttempt, List.length_cons]
        omega
      simpa [applyHistOps, histExcessFrom, applyHistOp] using ih _ (e + 1) h1

/-- C1 (amended): recording a played track always leaves the play history
within the HISTORY_SIZE bound, but recording a failed play attempt is a
plain prepend with no truncation, so after any sequence of history
operations the play-history length is only bounded by HISTORY_SIZE plus
the number of failed-attempt recordings since the last successful
record. -/
theorem playHistory_bounded_amended :
    (∀ (cfg : Config) (item : α × Option α) (h : List (HistEntry α)),
        (recordCurrentTrack cfg (some item) h).length ≤ cfg.HISTORY_SIZE) ∧
    (∀ (cfg : Config) (ops : List (HistOp α)),
        (applyHistOps cfg ops []).length ≤ cfg.HISTORY_SIZE + histExcess ops) := by
  refine ⟨recordCurrentTrack_length_le, fun cfg ops => ?_⟩
  rw [histExcess_eq_from]
  exact applyHistOps_length_le_from cfg ops [] 0 (by simp)

theorem applyHistOps_replicate_failed :
    ∀ (n : Nat) (h : List (HistEntry Nat)),
      (applyHistOps CONFIG (List.replicate n (HistOp.failed 0 none)) h).length
        = h.length + n := by
  intro n
  induction n with
  | zero => intro h; simp [applyHistOps]
  | succ m ih =>
    intro h
    have step : applyHistOps CONFIG (List.replicate (m + 1) (HistOp.failed 0 none)) h
        = applyHistOps CONFIG (List.replicate m (HistOp.failed 0 none))
            (HistEntry.mk 0 none :: h) := by
      simp [List.replicate_succ, applyHistOps, applyHistOp, recordFailedAttempt]
    rw [step, ih]
    simp
    omega

/-- C1 (counterexample): after a sequence of 501 failed-attempt recordings
the play history has 501 entries, exceeding HISTORY_SIZE = 500; the claim
that every sequence of history operations keeps the length within
HISTORY_SIZE is false. -/
theorem playHistory_bound_counterexample :
    CONFIG.HISTORY_SIZE < (applyHistOps CONFIG c1FailOps []).length := by
  have h := applyHistOps_replicate_failed 501 []
  simp only [c1FailOps]
  rw [h]
  decide

theorem drawLoop_mem {l : List (Track α × ℚ)} {r : ℚ} {t : Track α}
    (h : drawLoop l r = some t) : t ∈ l.map Prod.fst := by
  induction l generalizing r with
  | nil => simp [drawLoop] at h
  | cons p rest ih =>
    obtain ⟨t', w⟩ := p
    simp only [drawLoop] at h
    split at h
    · simp only [Option.some.injEq] at h
      simp [h]
    · simpa using Or.inr (ih h)

theorem map_fst_weighted (w : Track α → List (HistEntry α) → ℚ)
    (history : List (HistEntry α)) :
    ∀ l : List (Track α), (l.map (fun t => (t, w t history))).map Prod.fst = l := by
  intro l
  induction l with
  | nil => rfl
  | cons a l ih => simp only [List.map_cons, ih]

theorem weightedDraw_mem {l : List (Track α × ℚ)} {r : ℚ} {t : Track α}
    (h : weightedDraw l r = some t) : t ∈ l.map Prod.fst := by
  unfold weightedDraw at h
  cases hdl : drawLoop l (r * (l.map Prod.snd).sum) with
  | some t' =>
    rw [hdl] at h
    cases h
    exact drawLoop_mem hdl
  | none =>
    rw [hdl] at h
    cases hl : l.getLast? with
    | none => rw [hl] at h; cases h
    | some p =>
      rw [hl] at h
      simp only [Option.map_some', Option.some.injEq] at h
      subst h
      have : p ∈ l := by
        have hne : l ≠ [] := by
          intro hnil
          rw [hnil] at hl
          cases hl
        rw [List.getLast?_eq_getLast_of_ne_nil hne] at hl
        cases hl
        exact List.getLast_mem hne
      exact List.mem_map_of_mem Prod.fst this

theorem weightedDraw_isSome {l : List (Track α × ℚ)} (r : ℚ) (hne : l ≠ []) :
    ∃ t, weightedDraw l r = some t := by
  unfold weightedDraw
  cases hdl : drawLoop l (r * (l.map Prod.snd).sum) with
  | some t => exact ⟨t, rfl⟩
  | none =>
    rw [List.getLast?_eq_getLast_of_ne_nil hne]
    exact ⟨(l.getLast hne).1, rfl⟩

theorem shuffleCandidates_ne_nil (cfg : Config) {tracks : List (Track α)}
    (history : List (HistEntry α)) (hne : tracks ≠ []) :
    shuffleCandidates cfg tracks history ≠ [] := by
  unfold shuffleCandidates
  split
  · exact hne
  · assumption

theorem shuffleCandidates_subset (cfg : Config) {tracks : List (Track α)}
    {history : List (HistEntry α)} {t : Track α}
    (h : t ∈ shuffleCandidates cfg tracks history) : t ∈ tracks := by
  unfold shuffleCandidates at h
  split at h
  · exact h
  · exact (List.mem_filter.mp h).1

/-- On a non-empty candidate list the selector picks some track, and that
track is a member of the candidate list. -/
theorem pickNextTrack_mem (cfg : Config) (w : Track α → List (HistEntry α) → ℚ)
    (r : ℚ) {tracks : List (Track α)} (history : List (HistEntry α))
    (hne : tracks ≠ []) :
    ∃ t, pickNextTrack cfg w r tracks history = some t ∧ t ∈ tracks := by
  unfold pickNextTrack
  rw [if_neg hne]
  by_cases h1 : tracks.length = 1
  · rw [if_pos h1]
    match tracks, h1 with
    | [t], _ => exact ⟨t, rfl, by simp⟩
  · rw [if_neg h1]
    have hcne : (shuffleCandidates cfg tracks history).map (fun t => (t, w t history)) ≠ [] := by
      simpa using shuffleCandidates_ne_nil cfg history hne
    obtain ⟨t, ht⟩ := weightedDraw_isSome r hcne
    refine ⟨t, ht, ?_⟩
    have hmem := weightedDraw_mem ht
    rw [map_fst_weighted w history] at hmem
    exact shuffleCandidates_subset cfg hmem

/-- Whenever the selector returns a track, it is a member of the input
candidate list. -/
theorem pickNextTrack_some_mem (cfg : Config) (w : Track α → List (HistEntry α) → ℚ)
    (r : ℚ) {tracks : List (Track α)} {history : List (HistEntry α)} {t : Track α}
    (h : pickNextTrack cfg w r tracks history = some t) : t ∈ tracks := by
  rcases eq_or_ne tracks [] with hnil | hne
  · subst hnil
    simp [pickNextTrack] at h
  · obtain ⟨t', ht', hmem⟩ := pickNextTrack_mem cfg w r history hne
    rw [h] at ht'
    cases ht'
    exact hmem

/-- C3: the weighted selector returns null exactly on an empty candidate
list; on a singleton list it returns the sole element, skipping the
weighting; and any returned track is a member of the input candidate
list. -/
theorem pickNextTrack_basic (cfg : Config) (w : Track α → List (HistEntry α) → ℚ)
    (r : ℚ) (tracks : List (Track α)) (history : List (HistEntry α)) :
    (pickNextTrack cfg w r tracks history = none ↔ tracks = []) ∧
    (∀ t, tracks = [t] → pickNextTrack cfg w r tracks history = some t) ∧
    (∀ t, pickNextTrack cfg w r tracks history = some t → t ∈ tracks) := by
  refine ⟨⟨fun hnone => ?_, fun hnil => by simp [pickNextTrack, hnil]⟩,
    fun t htr => ?_, fun t => pickNextTrack_some_mem cfg w r⟩
  · by_contra hne
    obtain ⟨t, ht, -⟩ := pickNextTrack_mem cfg w r history hne
    rw [hnone] at ht
    cases ht
  · subst htr
    simp [pickNextTrack]

/-- Evaluation witness for C3 on concrete inputs. -/
theorem pickNextTrack_basic_witness :
    (pickNextTrack CONFIG (fun _ _ => 1) 0 ([] : List (Track Nat)) [] = none ↔
      ([] : List (Track Nat)) = []) ∧
    pickNextTrack CONFIG (fun _ _ => 1) 0 [Track.mk 7 none] [HistEntry.mk 7 none]
      = some (Track.mk 7 none) ∧
    Track.mk 7 none ∈ [Track.mk 7 none] := by
  obtain ⟨h1, h2, h3⟩ :=
    pickNextTrack_basic CONFIG (fun _ _ => (1 : ℚ)) 0 [Track.mk (7 : Nat) none]
      [HistEntry.mk 7 none]
  have hpick := h2 (Track.mk 7 none) rfl
  refine ⟨?_, hpick, h3 _ hpick⟩
  obtain ⟨h1', _, _⟩ :=
    pickNextTrack_basic CONFIG (fun _ _ => (1 : ℚ)) 0 ([] : List (Track Nat)) []
  exact h1'

/-- C4: with at least two candidates, whenever some candidate survives the
no-repeat exclusion window, the selected track is a candidate outside the
window; and in every case the selected track is a member of the input
candidate list (in particular when the filter empties the candidates and
the selector falls back to the unfiltered list). -/
theorem pickNextTrack_noRepeat (cfg : Config) (w : Track α → List (HistEntry α) → ℚ)
    (r : ℚ) (tracks : List (Track α)) (history : List (HistEntry α))
    (hlen : 2 ≤ tracks.length) :
    ((∃ t ∈ tracks, t.uri ∉ recentUriList cfg history) →
      ∀ t, pickNextTrack cfg w r tracks history = some t →
        t ∈ tracks ∧ t.uri ∉ recentUriList cfg history) ∧
    (∀ t, pickNextTrack cfg w r tracks history = some t → t ∈ tracks) := by
  refine ⟨fun hex t hpick => ?_, fun t => pickNextTrack_some_mem cfg w r⟩
  have hne : tracks ≠ [] := by
    intro hnil
    rw [hnil] at hlen
    simp at hlen
  have h1 : tracks.length ≠ 1 := by omega
  refine ⟨pickNextTrack_some_mem cfg w r hpick, ?_⟩
  unfold pickNextTrack at hpick
  rw [if_neg hne, if_neg h1] at hpick
  set filtered := tracks.filter (fun t => decide (t.uri ∉ recentUriList cfg history))
    with hfil
  have hfne : filtered ≠ [] := by
    obtain ⟨t0, ht0, ht0r⟩ := hex
    intro hnilf
    have : t0 ∈ filtered := by
      rw [hfil, List.mem_filter]
      exact ⟨ht0, by simpa using ht0r⟩
    rw [hnilf] at this
    cases this
  have hcand : shuffleCandidates cfg tracks history = filtered := by
    unfold shuffleCandidates
    rw [← hfil, if_neg hfne]
  have hmem := weightedDraw_mem hpick
  rw [map_fst_weighted w history, hcand] at hmem
  have := (List.mem_filter.mp (hfil ▸ hmem)).2
  simpa using this

/-- Evaluation witness for C4: in the scenario the exclusion set is the
two most recent uris, the selector (here run with random value 0) returns
track C = 3, and C is a candidate outside the exclusion set. -/
theorem pickNextTrack_noRepeat_witness :
    Track.mk 3 none ∈ c4tracks ∧ (3 : Nat) ∉ recentUriList c4cfg c4hist := by
  have hpick : pickNextTrack c4cfg (fun _ _ => 1) 0 c4tracks c4hist
      = some (Track.mk 3 none) := by
    norm_num [pickNextTrack, c4cfg, c4tracks, c4hist, shuffleCandidates, recentUriList,
      weightedDraw, drawLoop]
    intro h
    simp at h
  exact (pickNextTrack_noRepeat c4cfg (fun _ _ => 1) 0 c4tracks c4hist (by decide)).1
    (by decide) (Track.mk 3 none) hpick

@[simp] theorem restoreVolume_playHistory (s : TSState α) :
    (restoreVolume s).1.playHistory = s.playHistory := by
  rcases hv : s.savedVolume with _ | v <;> simp only [restoreVolume, hv] <;>
    first
      | rfl
      | (split <;> rfl)

@[simp] theorem restoreVolume_navigationHistory (s : TSState α) :
    (restoreVolume s).1.navigationHistory = s.navigationHistory := by
  rcases hv : s.savedVolume with _ | v <;> simp only [restoreVolume, hv] <;>
    first
      | rfl
      | (split <;> rfl)

@[simp] theorem restoreVolume_navigationIndex (s : TSState α) :
    (restoreVolume s).1.navigationIndex = s.navigationIndex := by
  rcases hv : s.savedVolume with _ | v <;> simp only [restoreVolume, hv] <;>
    first
      | rfl
      | (split <;> rfl)

@[simp] theorem restoreVolume_skipCounter (s : TSState α) :
    (restoreVolume s).1.skipCounter = s.skipCounter := by
  rcases hv : s.savedVolume with _ | v <;> simp only [restoreVolume, hv] <;>
    first
      | rfl
      | (split <;> rfl)

@[simp] theorem restoreVolume_currentPlaylistUri (s : TSState α) :
    (restoreVolume s).1.currentPlaylistUri = s.currentPlaylistUri := by
  rcases hv : s.savedVolume with _ | v <;> simp only [restoreVolume, hv] <;>
    first
      | rfl
      | (split <;> rfl)

@[simp] theorem restoreVolume_currentPlaylistTracks (s : TSState α) :
    (restoreVolume s).1.currentPlaylistTracks = s.currentPlaylistTracks := by
  rcases hv : s.savedVolume with _ | v <;> simp only [restoreVolume, hv] <;>
    first
      | rfl
      | (split <;> rfl)

@[simp] theorem restoreVolume_isNativePassSkip (s : TSState α) :
    (restoreVolume s).1.isNativePassSkip = s.isNativePassSkip := by
  rcases hv : s.savedVolume with _ | v <;> simp only [restoreVolume, hv] <;>
    first
      | rfl
      | (split <;> rfl)

@[simp] theorem restoreVolume_isHandlingAction (s : TSState α) :
    (restoreVolume s).1.isHandlingAction = s.isHandlingAction := by
  rcases hv : s.savedVolume with _ | v <;> simp only [restoreVolume, hv] <;>
    first
      | rfl
      | (split <;> rfl)

@[simp] theorem restoreVolume_lastPlayedByUsUri (s : TSState α) :
    (restoreVolume s).1.lastPlayedByUsUri = s.lastPlayedByUsUri := by
  rcases hv : s.savedVolume with _ | v <;> simp only [restoreVolume, hv] <;>
    first
      | rfl
      | (split <;> rfl)

@[simp] theorem restoreVolume_lastContextUri (s : TSState α) :
    (restoreVolume s).1.lastContextUri = s.lastContextUri := by
  rcases hv : s.savedVolume with _ | v <;> simp only [restoreVolume, hv] <;>
    first
      | rfl
      | (split <;> rfl)

@[simp] theorem muteForSkip_playHistory (s : TSState α) :
    (muteForSkip s).1.playHistory = s.playHistory := by
  cases hm : s.smoothSkipMuted <;> simp [muteForSkip, hm]

@[simp] theorem muteForSkip_navigationHistory (s : TSState α) :
    (muteForSkip s).1.navigationHistory = s.navigationHistory := by
  cases hm : s.smoothSkipMuted <;> simp [muteForSkip, hm]

@[simp] theorem muteForSkip_navigationIndex (s : TSState α) :
    (muteForSkip s).1.navigationIndex = s.navigationIndex := by
  cases hm : s.smoothSkipMuted <;> simp [muteForSkip, hm]

@[simp] theorem muteForSkip_skipCounter (s : TSState α) :
    (muteForSkip s).1.skipCounter = s.skipCounter := by
  cases hm : s.smoothSkipMuted <;> simp [muteForSkip, hm]

@[simp] theorem muteForSkip_currentPlaylistUri (s : TSState α) :
    (muteForSkip s).1.currentPlaylistUri = s.currentPlaylistUri := by
  cases hm : s.smoothSkipMuted <;> simp [muteForSkip, hm]

@[simp] theorem muteForSkip_currentPlaylistTracks (s : TSState α) :
    (muteForSkip s).1.currentPlaylistTracks = s.currentPlaylistTracks := by
  cases hm : s.smoothSkipMuted <;> simp [muteForSkip, hm]

@[simp] theorem muteForSkip_isNativePassSkip (s : TSState α) :
    (muteForSkip s).1.isNativePassSkip = s.isNativePassSkip := by
  cases hm : s.smoothSkipMuted <;> simp [muteForSkip, hm]

@[simp] theorem muteForSkip_isHandlingAction (s : TSState α) :
    (muteForSkip s).1.isHandlingAction = s.isHandlingAction := by
  cases hm : s.smoothSkipMuted <;> simp [muteForSkip, hm]

@[simp] theorem muteForSkip_lastPlayedByUsUri (s : TSState α) :
    (muteForSkip s).1.lastPlayedByUsUri = s.lastPlayedByUsUri := by
  cases hm : s.smoothSkipMuted <;> simp [muteForSkip, hm]

@[simp] theorem muteForSkip_lastContextUri (s : TSState α) :
    (muteForSkip s).1.lastContextUri = s.lastContextUri := by
  cases hm : s.smoothSkipMuted <;> simp [muteForSkip, hm]

@[simp] theorem muteForSkip_smoothSkipMuted (s : TSState α) :
    (muteForSkip s).1.smoothSkipMuted = true := by
  cases hm : s.smoothSkipMuted <;> simp [muteForSkip, hm]

@[simp] theorem muteForSkip_volume (s : TSState α) :
    (muteForSkip s).1.volume = 0 := by
  cases hm : s.smoothSkipMuted <;> simp [muteForSkip, hm]

@[simp] theorem muteForSkip_trace (s : TSState α) :
    (muteForSkip s).2 = [Effect.setVolume 0] := rfl

theorem mutedInv_muteForSkip {s : TSState α} (h : MutedInv s) :
    MutedInv (muteForSkip s).1 := by
  intro hmut
  cases hm : s.smoothSkipMuted
  · simp [muteForSkip, hm]
  · simpa [muteForSkip, hm] using h hm

theorem restoreVolume_not_muted {s : TSState α} (h : MutedInv s) :
    (restoreVolume s).1.smoothSkipMuted = false := by
  cases hm : s.smoothSkipMuted
  · rcases hv : s.savedVolume with _ | v <;> simp [restoreVolume, hv, hm]
  · rcases hv : s.savedVolume with _ | v
    · exact absurd hv (h hm)
    · simp [restoreVolume, hv, hm]

theorem restoreVolume_unmuted {s : TSState α} (h : s.smoothSkipMuted = false) :
    (restoreVolume s).1.smoothSkipMuted = false := by
  rcases hv : s.savedVolume with _ | v <;> simp [restoreVolume, hv, h]

theorem mutedInv_restoreVolume {s : TSState α} (h : MutedInv s) :
    MutedInv (restoreVolume s).1 := by
  intro hmut
  rw [restoreVolume_not_muted h] at hmut
  cases hmut

@[simp] theorem playTrackInContext_playHistory (env : SkipEnv α) (k : Nat) (uri : α)
    (s : TSState α) :
    (playTrackInContext env k uri s).1.playHistory = s.playHistory := by
  rcases hc : env.contextUri with _ | c
  · simp [playTrackInContext, hc]
  · simp only [playTrackInContext, hc]
    split <;> simp

@[simp] theorem playTrackInContext_navigationHistory (env : SkipEnv α) (k : Nat) (uri : α)
    (s : TSState α) :
    (playTrackInContext env k uri s).1.navigationHistory = s.navigationHistory := by
  rcases hc : env.contextUri with _ | c
  · simp [playTrackInContext, hc]
  · simp only [playTrackInContext, hc]
    split <;> simp

@[simp] theorem playTrackInContext_navigationIndex (env : SkipEnv α) (k : Nat) (uri : α)
    (s : TSState α) :
    (playTrackInContext env k uri s).1.navigationIndex = s.navigationIndex := by
  rcases hc : env.contextUri with _ | c
  · simp [playTrackInContext, hc]
  · simp only [playTrackInContext, hc]
    split <;> simp

@[simp] theorem playTrackInContext_skipCounter (env : SkipEnv α) (k : Nat) (uri : α)
    (s : TSState α) :
    (playTrackInContext env k uri s).1.skipCounter = s.skipCounter := by
  rcases hc : env.contextUri with _ | c
  · simp [playTrackInContext, hc]
  · simp only [playTrackInContext, hc]
    split <;> simp

@[simp] theorem playTrackInContext_currentPlaylistUri (env : SkipEnv α) (k : Nat) (uri : α)
    (s : TSState α) :
    (playTrackInContext env k uri s).1.currentPlaylistUri = s.currentPlaylistUri := by
  rcases hc : env.contextUri with _ | c
  · simp [playTrackInContext, hc]
  · simp only [playTrackInContext, hc]
    split <;> simp

@[simp] theorem playTrackInContext_currentPlaylistTracks (env : SkipEnv α) (k : Nat) (uri : α)
    (s : TSState α) :
    (playTrackInContext env k uri s).1.currentPlaylistTracks = s.currentPlaylistTracks := by
  rcases hc : env.contextUri with _ | c
  · simp [playTrackInContext, hc]
  · simp only [playTrackInContext, hc]
    split <;> simp

@[simp] theorem playTrackInContext_isNativePassSkip (env : SkipEnv α) (k : Nat) (uri : α)
    (s : TSState α) :
    (playTrackInContext env k uri s).1.isNativePassSkip = s.isNativePassSkip := by
  rcases hc : env.contextUri with _ | c
  · simp [playTrackInContext, hc]
  · simp only [playTrackInContext, hc]
    split <;> simp

@[simp] theorem playTrackInContext_isHandlingAction (env : SkipEnv α) (k : Nat) (uri : α)
    (s : TSState α) :
    (playTrackInContext env k uri s).1.isHandlingAction = s.isHandlingAction := by
  rcases hc : env.contextUri with _ | c
  · simp [playTrackInContext, hc]
  · simp only [playTrackInContext, hc]
    split <;> simp

theorem playTrackInContext_unmutes {env : SkipEnv α} {c : String} (k : Nat) (uri : α)
    {s : TSState α} (hc : env.contextUri = some c) (h : MutedInv s) :
    (playTrackInContext env k uri s).1.smoothSkipMuted = false := by
  simp only [playTrackInContext, hc]
  have h1 : MutedInv { s with lastPlayedByUsUri := some uri } := h
  have h2 : MutedInv { s with lastPlayedByUsUri := none } := h
  split <;> simp [restoreVolume_not_muted h1, restoreVolume_not_muted h2]

theorem playTrackInContext_keeps_unmuted {env : SkipEnv α} (k : Nat) (uri : α)
    {s : TSState α} (h : s.smoothSkipMuted = false) :
    (playTrackInContext env k uri s).1.smoothSkipMuted = false := by
  rcases hc : env.contextUri with _ | c
  · simpa [playTrackInContext, hc] using h
  · simp only [playTrackInContext, hc]
    have h1 : TSState.smoothSkipMuted { s with lastPlayedByUsUri := some uri } = false := h
    have h2 : TSState.smoothSkipMuted { s with lastPlayedByUsUri := none } = false := h
    split <;> simp [restoreVolume_unmuted h1, restoreVolume_unmuted h2]

theorem mutedInv_playTrackInContext (env : SkipEnv α) (k : Nat) (uri : α)
    {s : TSState α} (h : MutedInv s) :
    MutedInv (playTrackInContext env k uri s).1 := by
  rcases hc : env.contextUri with _ | c
  · simpa [playTrackInContext, hc] using h
  · simp only [playTrackInContext, hc]
    have h1 : MutedInv { s with lastPlayedByUsUri := some uri } := h
    have h2 : MutedInv { s with lastPlayedByUsUri := none } := h
    split <;> simp only
    · exact mutedInv_restoreVolume h1
    · exact mutedInv_restoreVolume h2

@[simp] theorem pushToNavigation_playHistory (cfg : Config) (uri? : Option α)
    (s : TSState α) :
    (pushToNavigation cfg uri? s).playHistory = s.playHistory := by
  cases uri? <;> simp [pushToNavigation]

@[simp] theorem pushToNavigation_skipCounter (cfg : Config) (uri? : Option α)
    (s : TSState α) :
    (pushToNavigation cfg uri? s).skipCounter = s.skipCounter := by
  cases uri? <;> simp [pushToNavigation]

@[simp] theorem pushToNavigation_currentPlaylistUri (cfg : Config) (uri? : Option α)
    (s : TSState α) :
    (pushToNavigation cfg uri? s).currentPlaylistUri = s.currentPlaylistUri := by
  cases uri? <;> simp [pushToNavigation]

@[simp] theorem pushToNavigation_currentPlaylistTracks (cfg : Config) (uri? : Option α)
    (s : TSState α) :
    (pushToNavigation cfg uri? s).currentPlaylistTracks = s.currentPlaylistTracks := by
  cases uri? <;> simp [pushToNavigation]

@[simp] theorem pushToNavigation_isNativePassSkip (cfg : Config) (uri? : Option α)
    (s : TSState α) :
    (pushToNavigation cfg uri? s).isNativePassSkip = s.isNativePassSkip := by
  cases uri? <;> simp [pushToNavigation]

@[simp] theorem pushToNavigation_isHandlingAction (cfg : Config) (uri? : Option α)
    (s : TSState α) :
    (pushToNavigation cfg uri? s).isHandlingAction = s.isHandlingAction := by
  cases uri? <;> simp [pushToNavigation]

@[simp] theorem pushToNavigation_lastPlayedByUsUri (cfg : Config) (uri? : Option α)
    (s : TSState α) :
    (pushToNavigation cfg uri? s).lastPlayedByUsUri = s.lastPlayedByUsUri := by
  cases uri? <;> simp [pushToNavigation]

@[simp] theorem pushToNavigation_savedVolume (cfg : Config) (uri? : Option α)
    (s : TSState α) :
    (pushToNavigation cfg uri? s).savedVolume = s.savedVolume := by
  cases uri? <;> simp [pushToNavigation]

@[simp] theorem pushToNavigation_smoothSkipMuted (cfg : Config) (uri? : Option α)
    (s : TSState α) :
    (pushToNavigation cfg uri? s).smoothSkipMuted = s.smoothSkipMuted := by
  cases uri? <;> simp [pushToNavigation]

@[simp] theorem pushToNavigation_volume (cfg : Config) (uri? : Option α)
    (s : TSState α) :
    (pushToNavigation cfg uri? s).volume = s.volume := by
  cases uri? <;> simp [pushToNavigation]

@[simp] theorem pushToNavigation_lastContextUri (cfg : Config) (uri? : Option α)
    (s : TSState α) :
    (pushToNavigation cfg uri? s).lastContextUri = s.lastContextUri := by
  cases uri? <;> simp [pushToNavigation]

@[simp] theorem ensurePlaylistLoaded_playHistory (env : SkipEnv α) (s : TSState α) :
    (ensurePlaylistLoaded env s).1.playHistory = s.playHistory := by
  rcases hc : env.contextUri with _ | c
  · simp [ensurePlaylistLoaded, hc]
  · simp only [ensurePlaylistLoaded, hc]
    split <;> rfl

@[simp] theorem ensurePlaylistLoaded_navigationHistory (env : SkipEnv α) (s : TSState α) :
    (ensurePlaylistLoaded env s).1.navigationHistory = s.navigationHistory := by
  rcases hc : env.contextUri with _ | c
  · simp [ensurePlaylistLoaded, hc]
  · simp only [ensurePlaylistLoaded, hc]
    split <;> rfl

@[simp] theorem ensurePlaylistLoaded_navigationIndex (env : SkipEnv α) (s : TSState α) :
    (ensurePlaylistLoaded env s).1.navigationIndex = s.navigationIndex := by
  rcases hc : env.contextUri with _ | c
  · simp [ensurePlaylistLoaded, hc]
  · simp only [ensurePlaylistLoaded, hc]
    split <;> rfl

@[simp] theorem ensurePlaylistLoaded_skipCounter (env : SkipEnv α) (s : TSState α) :
    (ensurePlaylistLoaded env s).1.skipCounter = s.skipCounter := by
  rcases hc : env.contextUri with _ | c
  · simp [ensurePlaylistLoaded, hc]
  · simp only [ensurePlaylistLoaded, hc]
    split <;> rfl

@[simp] theorem ensurePlaylistLoaded_isNativePassSkip (env : SkipEnv α) (s : TSState α) :
    (ensurePlaylistLoaded env s).1.isNativePassSkip = s.isNativePassSkip := by
  rcases hc : env.contextUri with _ | c
  · simp [ensurePlaylistLoaded, hc]
  · simp only [ensurePlaylistLoaded, hc]
    split <;> rfl

@[simp] theorem ensurePlaylistLoaded_isHandlingAction (env : SkipEnv α) (s : TSState α) :
    (ensurePlaylistLoaded env s).1.isHandlingAction = s.isHandlingAction := by
  rcases hc : env.contextUri with _ | c
  · simp [ensurePlaylistLoaded, hc]
  · simp only [ensurePlaylistLoaded, hc]
    split <;> rfl

@[simp] theorem ensurePlaylistLoaded_lastPlayedByUsUri (env : SkipEnv α) (s : TSState α) :
    (ensurePlaylistLoaded env s).1.lastPlayedByUsUri = s.lastPlayedByUsUri := by
  rcases hc : env.contextUri with _ | c
  · simp [ensurePlaylistLoaded, hc]
  · simp only [ensurePlaylistLoaded, hc]
    split <;> rfl

@[simp] theorem ensurePlaylistLoaded_savedVolume (env : SkipEnv α) (s : TSState α) :
    (ensurePlaylistLoaded env s).1.savedVolume = s.savedVolume := by
  rcases hc : env.contextUri with _ | c
  · simp [ensurePlaylistLoaded, hc]
  · simp only [ensurePlaylistLoaded, hc]
    split <;> rfl

@[simp] theorem ensurePlaylistLoaded_smoothSkipMuted (env : SkipEnv α) (s : TSState α) :
    (ensurePlaylistLoaded env s).1.smoothSkipMuted = s.smoothSkipMuted := by
  rcases hc : env.contextUri with _ | c
  · simp [ensurePlaylistLoaded, hc]
  · simp only [ensurePlaylistLoaded, hc]
    split <;> rfl

@[simp] theorem ensurePlaylistLoaded_volume (env : SkipEnv α) (s : TSState α) :
    (ensurePlaylistLoaded env s).1.volume = s.volume := by
  rcases hc : env.contextUri with _ | c
  · simp [ensurePlaylistLoaded, hc]
  · simp only [ensurePlaylistLoaded, hc]
    split <;> rfl

@[simp] theorem ensurePlaylistLoaded_lastContextUri (env : SkipEnv α) (s : TSState α) :
    (ensurePlaylistLoaded env s).1.lastContextUri = s.lastContextUri := by
  rcases hc : env.contextUri with _ | c
  · simp [ensurePlaylistLoaded, hc]
  · simp only [ensurePlaylistLoaded, hc]
    split <;> rfl

theorem boundNav_length_le (cfg : Config) (l : List α) :
    (boundNav cfg l).length ≤ cfg.HISTORY_SIZE := by
  unfold boundNav
  split
  · simp only [List.length_drop]
    omega
  · omega

theorem getLast?_boundNav_concat (cfg : Config) (hH : 0 < cfg.HISTORY_SIZE)
    (l : List α) (u : α) :
    (boundNav cfg (l ++ [u])).getLast? = some u := by
  unfold boundNav
  split
  · next hlt =>
    rw [List.drop_append_of_le_length]
    · exact List.getLast?_concat _
    · simp only [List.length_append, List.length_singleton] at hlt ⊢
      omega
  · exact List.getLast?_concat _

theorem navInv_pushToNavigation (cfg : Config) (uri? : Option α) {s : TSState α}
    (h : NavInv s) : NavInv (pushToNavigation cfg uri? s) := by
  cases uri? with
  | none => exact h
  | some uri =>
    constructor
    · intro hnil
      simp only [pushToNavigation] at hnil ⊢
      rw [hnil]
      simp
    · intro hne
      simp only [pushToNavigation] at hne ⊢
      have hlen : 0 < (boundNav cfg (pushNavList uri s)).length :=
        List.length_pos.mpr hne
      omega

theorem shuffleAttempts_skipCounter (cfg : Config) (env : SkipEnv α) :
    ∀ (fuel k : Nat) (s : TSState α),
      (shuffleAttempts cfg env fuel k s).1.skipCounter = s.skipCounter := by
  intro fuel
  induction fuel with
  | zero => intro k s; rfl
  | succ m ih =>
    intro k s
    rcases hp : pickNextTrack cfg env.calcWeight (env.rand01 k)
        (s.currentPlaylistTracks.getD []) s.playHistory with _ | t
    · simp [shuffleAttempts, hp]
    · cases hok : (playTrackInContext env k t.uri s).2.1 with
      | true => simp [shuffleAttempts, hp, hok]
      | false => simp [shuffleAttempts, hp, hok, ih]

theorem shuffleAttempts_currentPlaylistTracks (cfg : Config) (env : SkipEnv α) :
    ∀ (fuel k : Nat) (s : TSState α),
      (shuffleAttempts cfg env fuel k s).1.currentPlaylistTracks
        = s.currentPlaylistTracks := by
  intro fuel
  induction fuel with
  | zero => intro k s; rfl
  | succ m ih =>
    intro k s
    rcases hp : pickNextTrack cfg env.calcWeight (env.rand01 k)
        (s.currentPlaylistTracks.getD []) s.playHistory with _ | t
    · simp [shuffleAttempts, hp]
    · cases hok : (playTrackInContext env k t.uri s).2.1 with
      | true => simp [shuffleAttempts, hp, hok]
      | false => simp [shuffleAttempts, hp, hok, ih]

theorem shuffleAttempts_not_picked_nav (cfg : Config) (env : SkipEnv α) :
    ∀ (fuel k : Nat) (s : TSState α),
      (∀ u, (shuffleAttempts cfg env fuel k s).2.1 ≠ ForwardOutcome.picked u) →
      (shuffleAttempts cfg env fuel k s).1.navigationHistory = s.navigationHistory ∧
      (shuffleAttempts cfg env fuel k s).1.navigationIndex = s.navigationIndex := by
  intro fuel
  induction fuel with
  | zero => intro k s _; exact ⟨rfl, rfl⟩
  | succ m ih =>
    intro k s hnp
    rcases hp : pickNextTrack cfg env.calcWeight (env.rand01 k)
        (s.currentPlaylistTracks.getD []) s.playHistory with _ | t
    · simp [shuffleAttempts, hp]
    · cases hok : (playTrackInContext env k t.uri s).2.1 with
      | true =>
        exact absurd (by simp [shuffleAttempts, hp, hok]) (hnp t.uri)
      | false =>
        simp only [shuffleAttempts, hp, hok] at hnp ⊢
        simp only [Bool.false_eq_true, if_false] at hnp ⊢
        exact ⟨(ih (k + 1) _ hnp).1.trans (by simp), (ih (k + 1) _ hnp).2.trans (by simp)⟩

theorem shuffleAttempts_outcomes (cfg : Config) (env : SkipEnv α) :
    ∀ (fuel k : Nat) (s : TSState α),
      (shuffleAttempts cfg env fuel k s).2.1 = ForwardOutcome.exhausted ∨
      (shuffleAttempts cfg env fuel k s).2.1 = ForwardOutcome.noTrack ∨
      ∃ u, (shuffleAttempts cfg env fuel k s).2.1 = ForwardOutcome.picked u := by
  intro fuel
  induction fuel with
  | zero => intro k s; exact Or.inl rfl
  | succ m ih =>
    intro k s
    rcases hp : pickNextTrack cfg env.calcWeight (env.rand01 k)
        (s.currentPlaylistTracks.getD []) s.playHistory with _ | t
    · simp [shuffleAttempts, hp]
    · cases hok : (playTrackInContext env k t.uri s).2.1 with
      | true =>
        refine Or.inr (Or.inr ⟨t.uri, ?_⟩)
        simp [shuffleAttempts, hp, hok]
      | false =>
        have := ih (k + 1)
          { (playTrackInContext env k t.uri s).1 with
            playHistory := recordFailedAttempt (HistEntry.mk t.uri t.artistUri)
              (playTrackInContext env k t.uri s).1.playHistory }
        simpa [shuffleAttempts, hp, hok] using this

theorem countPlays_append (l1 l2 : List (Effect α)) :
    countPlays (l1 ++ l2) = countPlays l1 + countPlays l2 := by
  induction l1 with
  | nil => simp [countPlays]
  | cons e tr ih =>
    cases e <;> simp [countPlays, ih] <;> omega

@[simp] theorem countPlays_restoreVolume (s : TSState α) :
    countPlays (restoreVolume s).2 = 0 := by
  rcases hv : s.savedVolume with _ | v <;> simp only [restoreVolume, hv] <;>
    first
      | rfl
      | (split <;> rfl)

theorem countPlays_playTrackInContext {env : SkipEnv α} {c : String} (k : Nat) (uri : α)
    (s : TSState α) (hc : env.contextUri = some c) :
    countPlays (playTrackInContext env k uri s).2.2 = 1 := by
  simp only [playTrackInContext, hc]
  split <;> simp [countPlays]

theorem countPlays_playTrackInContext_le (env : SkipEnv α) (k : Nat) (uri : α)
    (s : TSState α) :
    countPlays (playTrackInContext env k uri s).2.2 ≤ 1 := by
  rcases hc : env.contextUri with _ | c
  · simp [playTrackInContext, hc, countPlays]
  · simp [countPlays_playTrackInContext k uri s hc]

theorem shuffleAttempts_countPlays_le (cfg : Config) (env : SkipEnv α) :
    ∀ (fuel k : Nat) (s : TSState α),
      countPlays (shuffleAttempts cfg env fuel k s).2.2 ≤ fuel := by
  intro fuel
  induction fuel with
  | zero => intro k s; exact Nat.le_refl 0
  | succ m ih =>
    intro k s
    rcases hp : pickNextTrack cfg env.calcWeight (env.rand01 k)
        (s.currentPlaylistTracks.getD []) s.playHistory with _ | t
    · simp [shuffleAttempts, hp, countPlays]
    · cases hok : (playTrackInContext env k t.uri s).2.1 with
      | true =>
        simp only [shuffleAttempts, hp, hok, if_true]
        exact le_trans (countPlays_playTrackInContext_le env k t.uri s) (by omega)
      | false =>
        simp only [shuffleAttempts, hp, hok, Bool.false_eq_true, if_false]
        rw [countPlays_append]
        exact le_trans
          (Nat.add_le_add (countPlays_playTrackInContext_le env k t.uri s) (ih (k + 1) _))
          (by omega)

theorem shuffleAttempts_exhausted_spec (cfg : Config) {env : SkipEnv α} {c : String}
    (hc : env.contextUri = some c) :
    ∀ (fuel k : Nat) (s : TSState α),
      (shuffleAttempts cfg env fuel k s).2.1 = ForwardOutcome.exhausted →
      countPlays (shuffleAttempts cfg env fuel k s).2.2 = fuel ∧
      (shuffleAttempts cfg env fuel k s).1.playHistory.length
        = s.playHistory.length + fuel := by
  intro fuel
  induction fuel with
  | zero => intro k s _; exact ⟨rfl, rfl⟩
  | succ m ih =>
    intro k s hexh
    rcases hp : pickNextTrack cfg env.calcWeight (env.rand01 k)
        (s.currentPlaylistTracks.getD []) s.playHistory with _ | t
    · rw [show (shuffleAttempts cfg env (m + 1) k s).2.1 = ForwardOutcome.noTrack by
        simp [shuffleAttempts, hp]] at hexh
      cases hexh
    · cases hok : (playTrackInContext env k t.uri s).2.1 with
      | true =>
        rw [show (shuffleAttempts cfg env (m + 1) k s).2.1
            = ForwardOutcome.picked t.uri by simp [shuffleAttempts, hp, hok]] at hexh
        cases hexh
      | false =>
        simp only [shuffleAttempts, hp, hok, Bool.false_eq_true, if_false] at hexh ⊢
        obtain ⟨h1, h2⟩ := ih (k + 1) _ hexh
        constructor
        · rw [countPlays_append, h1, countPlays_playTrackInContext k t.uri s hc]
          omega
        · rw [h2]
          simp only [recordFailedAttempt, List.length_cons]
          simp
          omega

theorem shuffleAttempts_picked_last (cfg : Config) (env : SkipEnv α)
    (hH : 0 < cfg.HISTORY_SIZE) :
    ∀ (fuel k : Nat) (s : TSState α) (u : α),
      (shuffleAttempts cfg env fuel k s).2.1 = ForwardOutcome.picked u →
      (shuffleAttempts cfg env fuel k s).1.navigationHistory.getLast? = some u := by
  intro fuel
  induction fuel with
  | zero => intro k s u h; cases h
  | succ m ih =>
    intro k s u hpk
    rcases hp : pickNextTrack cfg env.calcWeight (env.rand01 k)
        (s.currentPlaylistTracks.getD []) s.playHistory with _ | t
    · rw [show (shuffleAttempts cfg env (m + 1) k s).2.1 = ForwardOutcome.noTrack by
        simp [shuffleAttempts, hp]] at hpk
      cases hpk
    · cases hok : (playTrackInContext env k t.uri s).2.1 with
      | true =>
        have hu : t.uri = u := by
          have := hpk
          rw [show (shuffleAttempts cfg env (m + 1) k s).2.1
              = ForwardOutcome.picked t.uri by simp [shuffleAttempts, hp, hok]] at this
          cases this
          rfl
        subst hu
        simp only [shuffleAttempts, hp, hok, if_true]
        simp only [pushToNavigation, pushNavList]
        exact getLast?_boundNav_concat cfg hH _ _
      | false =>
        simp only [shuffleAttempts, hp, hok, Bool.false_eq_true, if_false] at hpk ⊢
        exact ih (k + 1) _ u hpk

theorem navInv_congr {s s' : TSState α}
    (hnav : s'.navigationHistory = s.navigationHistory)
    (hidx : s'.navigationIndex = s.navigationIndex) (h : NavInv s) : NavInv s' := by
  unfold NavInv at *
  rw [hnav, hidx]
  exact h

theorem navInv_shuffleAttempts (cfg : Config) (env : SkipEnv α) :
    ∀ (fuel k : Nat) {s : TSState α}, NavInv s →
      NavInv (shuffleAttempts cfg env fuel k s).1 := by
  intro fuel
  induction fuel with
  | zero => intro k s h; exact h
  | succ m ih =>
    intro k s h
    rcases hp : pickNextTrack cfg env.calcWeight (env.rand01 k)
        (s.currentPlaylistTracks.getD []) s.playHistory with _ | t
    · simpa [shuffleAttempts, hp] using h
    · cases hok : (playTrackInContext env k t.uri s).2.1 with
      | true =>
        simp only [shuffleAttempts, hp, hok, if_true]
        exact navInv_pushToNavigation cfg _ (navInv_congr (by simp) (by simp) h)
      | false =>
        simp only [shuffleAttempts, hp, hok, Bool.false_eq_true, if_false]
        exact ih (k + 1) (navInv_congr (by simp) (by simp) h)

theorem shuffleAttempts_keeps_unmuted (cfg : Config) (env : SkipEnv α) :
    ∀ (fuel k : Nat) {s : TSState α}, s.smoothSkipMuted = false →
      (shuffleAttempts cfg env fuel k s).1.smoothSkipMuted = false := by
  intro fuel
  induction fuel with
  | zero => intro k s h; exact h
  | succ m ih =>
    intro k s h
    rcases hp : pickNextTrack cfg env.calcWeight (env.rand01 k)
        (s.currentPlaylistTracks.getD []) s.playHistory with _ | t
    · simpa [shuffleAttempts, hp] using h
    · cases hok : (playTrackInContext env k t.uri s).2.1 with
      | true =>
        simp only [shuffleAttempts, hp, hok, if_true]
        simp [playTrackInContext_keeps_unmuted k t.uri h]
      | false =>
        simp only [shuffleAttempts, hp, hok, Bool.false_eq_true, if_false]
        exact ih (k + 1) (playTrackInContext_keeps_unmuted k t.uri h)

theorem shuffleAttempts_unmutes (cfg : Config) {env : SkipEnv α} {c : String}
    (hc : env.contextUri = some c) :
    ∀ (fuel k : Nat) {s : TSState α}, MutedInv s →
      ((∃ u, (shuffleAttempts cfg env fuel k s).2.1 = ForwardOutcome.picked u) ∨
        (0 < fuel ∧ (shuffleAttempts cfg env fuel k s).2.1 = ForwardOutcome.exhausted)) →
      (shuffleAttempts cfg env fuel k s).1.smoothSkipMuted = false := by
  intro fuel
  induction fuel with
  | zero =>
    intro k s _ hout
    rcases hout with ⟨u, hu⟩ | ⟨hf, _⟩
    · cases hu
    · cases hf
  | succ m ih =>
    intro k s h hout
    rcases hp : pickNextTrack cfg env.calcWeight (env.rand01 k)
        (s.currentPlaylistTracks.getD []) s.playHistory with _ | t
    · exfalso
      rcases hout with ⟨u, hu⟩ | ⟨_, hu⟩ <;>
        rw [show (shuffleAttempts cfg env (m + 1) k s).2.1 = ForwardOutcome.noTrack by
          simp [shuffleAttempts, hp]] at hu <;> cases hu
    · cases hok : (playTrackInContext env k t.uri s).2.1 with
      | true =>
        simp only [shuffleAttempts, hp, hok, if_true]
        simp [playTrackInContext_unmutes k t.uri hc h]
      | false =>
        simp only [shuffleAttempts, hp, hok, Bool.false_eq_true, if_false]
        exact shuffleAttempts_keeps_unmuted cfg env m (k + 1)
          (playTrackInContext_unmutes k t.uri hc h)

theorem ensurePlaylistLoaded_cached {env : SkipEnv α} {c : String} {s : TSState α}
    {ts : List (Track α)} (hc : env.contextUri = some c)
    (hcp : s.currentPlaylistUri = some c) (hct : s.currentPlaylistTracks = some ts)
    (hts : ts ≠ []) :
    ensurePlaylistLoaded env s = (s, true) := by
  have hpos : 0 < ts.length := List.length_pos.mpr hts
  simp [ensurePlaylistLoaded, hc, hcp, hct, hpos]

theorem playTrackInContext_fail {env : SkipEnv α} (hpf : ∀ n u, env.playOk n u = false)
    (k : Nat) (uri : α) (s : TSState α) :
    (playTrackInContext env k uri s).2.1 = false := by
  rcases hc : env.contextUri with _ | c <;> simp [playTrackInContext, hc, hpf]

theorem shuffleAttempts_all_fail_not_picked (cfg : Config) {env : SkipEnv α}
    (hpf : ∀ n u, env.playOk n u = false) :
    ∀ (fuel k : Nat) (s : TSState α) (u : α),
      (shuffleAttempts cfg env fuel k s).2.1 ≠ ForwardOutcome.picked u := by
  intro fuel
  induction fuel with
  | zero => intro k s u h; cases h
  | succ m ih =>
    intro k s u
    rcases hp : pickNextTrack cfg env.calcWeight (env.rand01 k)
        (s.currentPlaylistTracks.getD []) s.playHistory with _ | t
    · rw [show (shuffleAttempts cfg env (m + 1) k s).2.1 = ForwardOutcome.noTrack by
        simp [shuffleAttempts, hp]]
      intro h
      cases h
    · have hok := playTrackInContext_fail hpf k t.uri s
      simp only [shuffleAttempts, hp, hok, Bool.false_eq_true, if_false]
      exact ih (k + 1) _ u

theorem skipCounterPhase_native_eq (cfg : Config) (env : SkipEnv α) (k : Nat)
    (s : TSState α) (hmod : (s.skipCounter + 1) % cfg.TRUE_SHUFFLE_EVERY ≠ 0) :
    skipCounterPhase cfg env k s
      = ((muteForSkip { s with skipCounter := s.skipCounter + 1, isNativePassSkip := true, isHandlingAction := false }).1,
         ForwardOutcome.nativePass, [Effect.setVolume 0, Effect.nativeSkip]) := by
  simp only [skipCounterPhase]
  rw [if_pos (by simpa using hmod)]
  simp

theorem skipCounterPhase_shuffle_eq (cfg : Config) (env : SkipEnv α) (k : Nat)
    (s : TSState α) (hmod : (s.skipCounter + 1) % cfg.TRUE_SHUFFLE_EVERY = 0) :
    skipCounterPhase cfg env k s
      = ({ (shuffleAttempts cfg env 3 k { s with skipCounter := s.skipCounter + 1 }).1
            with isHandlingAction := false },
         (shuffleAttempts cfg env 3 k { s with skipCounter := s.skipCounter + 1 }).2.1,
         (shuffleAttempts cfg env 3 k { s with skipCounter := s.skipCounter + 1 }).2.2) := by
  simp only [skipCounterPhase]
  rw [if_neg (by simpa using hmod)]

theorem navInv_skipCounterPhase (cfg : Config) (env : SkipEnv α) (k : Nat)
    {s : TSState α} (h : NavInv s) : NavInv (skipCounterPhase cfg env k s).1 := by
  by_cases hmod : (s.skipCounter + 1) % cfg.TRUE_SHUFFLE_EVERY = 0
  · rw [skipCounterPhase_shuffle_eq cfg env k s hmod]
    have hinner : NavInv ({ s with skipCounter := s.skipCounter + 1 } : TSState α) :=
      navInv_congr (by simp) (by simp) h
    have houter := navInv_shuffleAttempts cfg env 3 k hinner
    exact navInv_congr (by simp) (by simp) houter
  · rw [skipCounterPhase_native_eq cfg env k s hmod]
    exact navInv_congr (by simp) (by simp) h

theorem skipCounterPhase_skipCounter (cfg : Config) (env : SkipEnv α) (k : Nat)
    (s : TSState α) :
    (skipCounterPhase cfg env k s).1.skipCounter = s.skipCounter + 1 := by
  by_cases hmod : (s.skipCounter + 1) % cfg.TRUE_SHUFFLE_EVERY = 0
  · rw [skipCounterPhase_shuffle_eq cfg env k s hmod]
    simp [shuffleAttempts_skipCounter]
  · rw [skipCounterPhase_native_eq cfg env k s hmod]
    simp

theorem skipCounterPhase_outcome_iff (cfg : Config) (env : SkipEnv α) (k : Nat)
    (s : TSState α) :
    ((skipCounterPhase cfg env k s).2.1 = ForwardOutcome.nativePass ↔
      (s.skipCounter + 1) % cfg.TRUE_SHUFFLE_EVERY ≠ 0) ∧
    ((s.skipCounter + 1) % cfg.TRUE_SHUFFLE_EVERY = 0 →
      (skipCounterPhase cfg env k s).2.1 = ForwardOutcome.exhausted ∨
      (skipCounterPhase cfg env k s).2.1 = ForwardOutcome.noTrack ∨
      ∃ u, (skipCounterPhase cfg env k s).2.1 = ForwardOutcome.picked u) := by
  by_cases hmod : (s.skipCounter + 1) % cfg.TRUE_SHUFFLE_EVERY = 0
  · rw [skipCounterPhase_shuffle_eq cfg env k s hmod]
    constructor
    · constructor
      · intro hout
        rcases shuffleAttempts_outcomes cfg env 3 k
            { s with skipCounter := s.skipCounter + 1 } with h1 | h1 | ⟨u, h1⟩ <;>
          · rw [h1] at hout
            simp at hout
      · intro hne
        exact absurd hmod hne
    · intro _
      simpa using shuffleAttempts_outcomes cfg env 3 k
        { s with skipCounter := s.skipCounter + 1 }
  · rw [skipCounterPhase_native_eq cfg env k s hmod]
    refine ⟨⟨fun _ => hmod, fun _ => rfl⟩, fun h0 => absurd h0 hmod⟩

theorem handleSkipForward_atTail_eq (cfg : Config) {env : SkipEnv α} {c : String}
    {s : TSState α} {ts : List (Track α)}
    (hguard : s.isHandlingAction = false)
    (hc : env.contextUri = some c)
    (hcp : s.currentPlaylistUri = some c)
    (hct : s.currentPlaylistTracks = some ts)
    (hts : ts ≠ [])
    (htail : ¬ (s.navigationIndex < (s.navigationHistory.length : Int) - 1)) :
    handleSkipForward cfg env s
      = skipCounterPhase cfg env 0
          { s with isHandlingAction := true,
                   playHistory := recordCurrentTrack cfg env.currentTrack s.playHistory } := by
  have hens : ensurePlaylistLoaded env { s with isHandlingAction := true }
      = ({ s with isHandlingAction := true }, true) :=
    ensurePlaylistLoaded_cached hc hcp hct hts
  simp only [handleSkipForward, hguard, Bool.false_eq_true, if_false, hens]
  rw [if_neg (by simp), if_neg (by simpa using htail)]

theorem navInv_handleSkipForward (cfg : Config) (env : SkipEnv α) {s : TSState α}
    (h : NavInv s) : NavInv (handleSkipForward cfg env s).1 := by
  simp only [handleSkipForward]
  split
  · exact h
  next hg =>
    split
    next hl => exact navInv_congr (by simp) (by simp) h
    next hl =>
      split
      next hidx =>
        have hidx' : s.navigationIndex < (s.navigationHistory.length : Int) - 1 := by
          simpa using hidx
        have hne : s.navigationHistory ≠ [] := by
          intro hnil
          have h1 := h.1 hnil
          rw [hnil, h1] at hidx'
          simp at hidx'
        have hrange := h.2 hne
        split
        next nextUri hget =>
          split
          next hok =>
            constructor
            · intro hnil
              exact absurd (by simpa using hnil) hne
            · intro _
              constructor
              · simp
                omega
              · simp
                omega
          next hok =>
            apply navInv_skipCounterPhase
            exact navInv_congr (by simp) (by simp) h
        next hget =>
          apply navInv_skipCounterPhase
          exact navInv_congr (by simp) (by simp) h
      next hidx =>
        apply navInv_skipCounterPhase
        exact navInv_congr (by simp) (by simp) h

theorem navInv_handleSkipBack (env : SkipEnv α) {s : TSState α}
    (h : NavInv s) : NavInv (handleSkipBack env s).1 := by
  simp only [handleSkipBack]
  split
  · exact h
  next hg =>
    split
    next hpos =>
      have hpos' : (0 : Int) < s.navigationIndex := by simpa using hpos
      have hne : s.navigationHistory ≠ [] := by
        intro hnil
        have h1 := h.1 hnil
        rw [h1] at hpos'
        simp at hpos'
      have hrange := h.2 hne
      split
      next prevUri hget =>
        constructor
        · intro hnil
          exact absurd (by simpa using hnil) hne
        · intro _
          constructor
          · simp
            omega
          · simp
            omega
      next hget =>
        constructor
        · intro hnil
          exact absurd (by simpa using hnil) hne
        · intro _
          constructor
          · simp
            omega
          · simp
            omega
    next hpos => exact navInv_congr (by simp) (by simp) h

theorem navInv_onSongChange (cfg : Config) (env : SongEnv α) {s : TSState α}
    (h : NavInv s) : NavInv (onSongChange cfg env s).1 := by
  simp only [onSongChange]
  split
  · exact h
  · split
    · split
      · exact navInv_congr (by simp) (by simp) h
      next u heq =>
        split
        next hmem => exact navInv_congr (by simp) (by simp) h
        next hmem =>
          have hinner : NavInv ({ s with isNativePassSkip := false } : TSState α) :=
            navInv_congr (by simp) (by simp) h
          have hpush := navInv_pushToNavigation cfg (some u) hinner
          exact navInv_congr (by simp) (by simp) hpush
    · split
      · exact navInv_congr (by simp) (by simp) h
      · split
        next hctx =>
          have hpush : NavInv (pushToNavigation cfg env.currentUri { s with lastContextUri := env.contextUri, currentPlaylistUri := none, currentPlaylistTracks := none, skipCounter := 0, playHistory := [], navigationHistory := [], navigationIndex := -1 }) := by
            apply navInv_pushToNavigation
            constructor
            · intro _
              rfl
            · intro hne
              simp at hne
          split
          · split
            · exact navInv_congr (by simp) (by simp) hpush
            · exact hpush
          · exact hpush
        next hctx =>
          split
          · exact h
          · split
            · exact navInv_handleSkipForward cfg env.skipEnv h
            · exact h

theorem boundNav_subset (cfg : Config) {l : List α} {x : α}
    (h : x ∈ boundNav cfg l) : x ∈ l := by
  unfold boundNav at h
  split at h
  · exact List.mem_of_mem_drop h
  · exact h

/-- C7: pushing a track identity while the navigation cursor is not at the
tail first discards all entries after the cursor, then appends the
identity; the cursor moves to the tail of the resulting sequence; the
HISTORY_SIZE bound is enforced by dropping entries from the front with the
cursor re-pointed at the new tail; and every surviving entry comes from
the kept prefix or is the new identity, so nothing that was forward of the
cursor remains reachable. -/
theorem pushToNavigation_spec (cfg : Config) (uri : α) (s : TSState α)
    (h0 : 0 ≤ s.navigationIndex)
    (htail : s.navigationIndex < (s.navigationHistory.length : Int) - 1) :
    (pushToNavigation cfg (some uri) s).navigationHistory
      = boundNav cfg (s.navigationHistory.take (s.navigationIndex + 1).toNat ++ [uri]) ∧
    (pushToNavigation cfg (some uri) s).navigationIndex
      = ((pushToNavigation cfg (some uri) s).navigationHistory.length : Int) - 1 ∧
    (pushToNavigation cfg (some uri) s).navigationHistory.length ≤ cfg.HISTORY_SIZE ∧
    (∀ x, x ∈ (pushToNavigation cfg (some uri) s).navigationHistory →
      x ∈ s.navigationHistory.take (s.navigationIndex + 1).toNat ++ [uri]) := by
  have hlist : pushNavList uri s
      = s.navigationHistory.take (s.navigationIndex + 1).toNat ++ [uri] := by
    unfold pushNavList
    rw [if_pos htail]
  refine ⟨by simp [pushToNavigation, hlist], by simp [pushToNavigation], ?_, ?_⟩
  · simp only [pushToNavigation]
    exact boundNav_length_le cfg _
  · intro x hx
    simp only [pushToNavigation] at hx
    rw [hlist] at hx
    exact boundNav_subset cfg hx

/-- Evaluation witness for C7: pushing 99 with cursor 1 in [10, 20, 30]
keeps [10, 20], appends 99, and moves the cursor to the new tail. -/
theorem pushToNavigation_spec_witness :
    (pushToNavigation CONFIG (some 99) c7s).navigationHistory = [10, 20, 99] ∧
    (pushToNavigation CONFIG (some 99) c7s).navigationIndex = 2 := by
  obtain ⟨h1, h2, h3, h4⟩ := pushToNavigation_spec CONFIG 99 c7s (by decide) (by decide)
  refine ⟨h1.trans (by decide), ?_⟩
  rw [h2, h1]
  decide

/-- C8: after each navigation-history operation — a push, a forward skip,
a back skip, or a songchange (including the context-change reset) — the
navigation cursor is a valid index into the sequence, or -1 exactly when
the sequence is empty. -/
theorem navigation_invariant (cfg : Config) (senv : SongEnv α) (env : SkipEnv α)
    (uri? : Option α) {s : TSState α} (h : NavInv s) :
    NavInv (pushToNavigation cfg uri? s) ∧
    NavInv (handleSkipForward cfg env s).1 ∧
    NavInv (handleSkipBack env s).1 ∧
    NavInv (onSongChange cfg senv s).1 :=
  ⟨navInv_pushToNavigation cfg uri? h, navInv_handleSkipForward cfg env h,
   navInv_handleSkipBack env h, navInv_onSongChange cfg senv h⟩

/-- Evaluation witness for C8 at a concrete state and environment. -/
theorem navigation_invariant_witness :
    NavInv (pushToNavigation CONFIG (some 7) c8s) ∧
    NavInv (handleSkipBack c8env c8s).1 := by
  obtain ⟨h1, h2, h3, h4⟩ :=
    navigation_invariant CONFIG c8senv c8env (some 7) (by decide : NavInv c8s)
  exact ⟨h1, h3⟩

/-- C5: on a forward skip taken with the navigation cursor at the tail,
the skip counter is incremented, the request is a native pass-through
exactly when the incremented counter is not divisible by
TRUE_SHUFFLE_EVERY, and otherwise the weighted-selector path runs (its
outcome is a pick, selector exhaustion, or the no-track guard). -/
theorem skipForward_cadence (cfg : Config) {env : SkipEnv α} {c : String}
    {s : TSState α} {ts : List (Track α)}
    (hguard : s.isHandlingAction = false)
    (hc : env.contextUri = some c)
    (hcp : s.currentPlaylistUri = some c)
    (hct : s.currentPlaylistTracks = some ts)
    (hts : ts ≠ [])
    (htail : ¬ (s.navigationIndex < (s.navigationHistory.length : Int) - 1)) :
    (handleSkipForward cfg env s).1.skipCounter = s.skipCounter + 1 ∧
    ((handleSkipForward cfg env s).2.1 = ForwardOutcome.nativePass ↔
      (s.skipCounter + 1) % cfg.TRUE_SHUFFLE_EVERY ≠ 0) ∧
    ((s.skipCounter + 1) % cfg.TRUE_SHUFFLE_EVERY = 0 →
      (handleSkipForward cfg env s).2.1 = ForwardOutcome.exhausted ∨
      (handleSkipForward cfg env s).2.1 = ForwardOutcome.noTrack ∨
      ∃ u, (handleSkipForward cfg env s).2.1 = ForwardOutcome.picked u) := by
  rw [handleSkipForward_atTail_eq cfg hguard hc hcp hct hts htail]
  refine ⟨?_, ?_, ?_⟩
  · simpa using skipCounterPhase_skipCounter cfg env 0
      { s with isHandlingAction := true, playHistory := recordCurrentTrack cfg env.currentTrack s.playHistory }
  · simpa using (skipCounterPhase_outcome_iff cfg env 0
      { s with isHandlingAction := true, playHistory := recordCurrentTrack cfg env.currentTrack s.playHistory }).1
  · simpa using (skipCounterPhase_outcome_iff cfg env 0
      { s with isHandlingAction := true, playHistory := recordCurrentTrack cfg env.currentTrack s.playHistory }).2

/-- Evaluation witness for C5: three successive forward skips on a fresh
context are native, native, then a True-Shuffle pick. -/
theorem skipForward_cadence_witness :
    (handleSkipForward CONFIG c5env c5s0).2.1 = ForwardOutcome.nativePass ∧
    (handleSkipForward CONFIG c5env c5s1).2.1 = ForwardOutcome.nativePass ∧
    (handleSkipForward CONFIG c5env c5s2).2.1 = ForwardOutcome.picked 0 := by
  have hguard : c5s0.isHandlingAction = false := by decide
  have hc : c5env.contextUri = some "spotify:playlist:w" := rfl
  have hcp : c5s0.currentPlaylistUri = some "spotify:playlist:w" := rfl
  have hct : c5s0.currentPlaylistTracks = some [Track.mk 0 none] := rfl
  have hts : ([Track.mk 0 none] : List (Track Nat)) ≠ [] := by decide
  have htail : ¬ (c5s0.navigationIndex < (c5s0.navigationHistory.length : Int) - 1) := by
    decide
  have h := (skipForward_cadence CONFIG hguard hc hcp hct hts htail).2.1
  refine ⟨h.mpr (by decide), by decide, by decide⟩

theorem skipCounterPhase_nav_all_fail (cfg : Config) {env : SkipEnv α}
    (hpf : ∀ n u, env.playOk n u = false) (k : Nat) (s : TSState α) :
    (skipCounterPhase cfg env k s).1.navigationIndex = s.navigationIndex ∧
    (skipCounterPhase cfg env k s).1.navigationHistory = s.navigationHistory := by
  by_cases hmod : (s.skipCounter + 1) % cfg.TRUE_SHUFFLE_EVERY = 0
  · rw [skipCounterPhase_shuffle_eq cfg env k s hmod]
    have hnp : ∀ u, (shuffleAttempts cfg env 3 k
        { s with skipCounter := s.skipCounter + 1 }).2.1 ≠ ForwardOutcome.picked u :=
      fun u => shuffleAttempts_all_fail_not_picked cfg hpf 3 k _ u
    obtain ⟨h1, h2⟩ := shuffleAttempts_not_picked_nav cfg env 3 k _ hnp
    exact ⟨by simp [h2], by simp [h1]⟩
  · rw [skipCounterPhase_native_eq cfg env k s hmod]
    exact ⟨by simp, by simp⟩

/-- C9: when the counter phase runs the True-Shuffle pick, the request
makes at most 3 play attempts; if it ends exhausted it made exactly 3,
each failed attempt was recorded into play history (three entries beyond
the departing-track record), and the navigation history and cursor are
untouched; if a pick succeeded the picked track sits at the tail of the
navigation history. -/
theorem trueShufflePick_retries (cfg : Config) {env : SkipEnv α} {c : String}
    {s : TSState α} {ts : List (Track α)}
    (hguard : s.isHandlingAction = false)
    (hc : env.contextUri = some c)
    (hcp : s.currentPlaylistUri = some c)
    (hct : s.currentPlaylistTracks = some ts)
    (hts : ts ≠ [])
    (htail : ¬ (s.navigationIndex < (s.navigationHistory.length : Int) - 1))
    (hmod : (s.skipCounter + 1) % cfg.TRUE_SHUFFLE_EVERY = 0) :
    countPlays (handleSkipForward cfg env s).2.2 ≤ 3 ∧
    ((handleSkipForward cfg env s).2.1 = ForwardOutcome.exhausted →
      (handleSkipForward cfg env s).1.navigationHistory = s.navigationHistory ∧
      (handleSkipForward cfg env s).1.navigationIndex = s.navigationIndex ∧
      countPlays (handleSkipForward cfg env s).2.2 = 3 ∧
      (handleSkipForward cfg env s).1.playHistory.length
        = (recordCurrentTrack cfg env.currentTrack s.playHistory).length + 3) ∧
    (∀ u, (handleSkipForward cfg env s).2.1 = ForwardOutcome.picked u →
      0 < cfg.HISTORY_SIZE →
      (handleSkipForward cfg env s).1.navigationHistory.getLast? = some u) := by
  rw [handleSkipForward_atTail_eq cfg hguard hc hcp hct hts htail]
  rw [skipCounterPhase_shuffle_eq cfg env 0
    { s with isHandlingAction := true, playHistory := recordCurrentTrack cfg env.currentTrack s.playHistory }
    (by simpa using hmod)]
  refine ⟨?_, fun hexh => ?_, fun u hpk hH => ?_⟩
  · simpa using shuffleAttempts_countPlays_le cfg env 3 0 _
  · have hnp : ∀ u, (shuffleAttempts cfg env 3 0
        { { s with isHandlingAction := true, playHistory := recordCurrentTrack cfg env.currentTrack s.playHistory } with skipCounter := s.skipCounter + 1 }).2.1
        ≠ ForwardOutcome.picked u := by
      intro u h'
      rw [show (shuffleAttempts cfg env 3 0 _).2.1 = ForwardOutcome.exhausted from hexh] at h'
      cases h'
    obtain ⟨h1, h2⟩ := shuffleAttempts_not_picked_nav cfg env 3 0 _ hnp
    obtain ⟨h3, h4⟩ := shuffleAttempts_exhausted_spec cfg hc 3 0 _ hexh
    exact ⟨by simpa using h1, by simpa using h2, by simpa using h3, by simpa using h4⟩
  · have := shuffleAttempts_picked_last cfg env hH 3 0 _ u hpk
    simpa using this

/-- Evaluation witness for C9: a single failing track exhausts the three
attempts, with exactly three play commands, three failed-attempt records,
and an untouched navigation history. -/
theorem trueShufflePick_retries_witness :
    (handleSkipForward CONFIG c2env c2s).2.1 = ForwardOutcome.exhausted ∧
    countPlays (handleSkipForward CONFIG c2env c2s).2.2 = 3 ∧
    (handleSkipForward CONFIG c2env c2s).1.navigationHistory = c2s.navigationHistory ∧
    (handleSkipForward CONFIG c2env c2s).1.playHistory.length
      = (recordCurrentTrack CONFIG c2env.currentTrack c2s.playHistory).length + 3 := by
  have hguard : c2s.isHandlingAction = false := by decide
  have hc : c2env.contextUri = some "spotify:playlist:x" := rfl
  have hcp : c2s.currentPlaylistUri = some "spotify:playlist:x" := rfl
  have hct : c2s.currentPlaylistTracks = some [Track.mk 9 none] := rfl
  have hts : ([Track.mk 9 none] : List (Track Nat)) ≠ [] := by decide
  have htail : ¬ (c2s.navigationIndex < (c2s.navigationHistory.length : Int) - 1) := by
    decide
  have hmod : (c2s.skipCounter + 1) % CONFIG.TRUE_SHUFFLE_EVERY = 0 := by decide
  obtain ⟨hle, hex, hpk⟩ :=
    trueShufflePick_retries CONFIG hguard hc hcp hct hts htail hmod
  have hexh : (handleSkipForward CONFIG c2env c2s).2.1 = ForwardOutcome.exhausted := by
    decide
  obtain ⟨hnav, hidx, hcount, hlen⟩ := hex hexh
  exact ⟨hexh, hcount, hnav, hlen⟩

/-- C10: when a back skip's play command fails the decremented cursor is
kept, while a forward replay of navigation history rolls its cursor back
on play failure (so with every play failing, a forward skip from a
non-tail cursor ends with its cursor unchanged). -/
theorem backSkip_noRollback (cfg : Config) {env envf : SkipEnv α}
    {s t : TSState α} {c : String} {ts : List (Track α)}
    (hpf : ∀ n u, env.playOk n u = false)
    (hguard : s.isHandlingAction = false)
    (hpos : (0 : Int) < s.navigationIndex)
    (hpff : ∀ n u, envf.playOk n u = false)
    (hguardf : t.isHandlingAction = false)
    (hcf : envf.contextUri = some c)
    (hcpf : t.currentPlaylistUri = some c)
    (hctf : t.currentPlaylistTracks = some ts)
    (htsf : ts ≠ [])
    (hidxf : t.navigationIndex < (t.navigationHistory.length : Int) - 1) :
    (handleSkipBack env s).1.navigationIndex = s.navigationIndex - 1 ∧
    (handleSkipForward cfg envf t).1.navigationIndex = t.navigationIndex := by
  constructor
  · simp only [handleSkipBack, hguard, Bool.false_eq_true, if_false]
    rw [if_pos (by simpa using hpos)]
    split
    next prevUri hget => simp
    next hget => simp
  · have hens : ensurePlaylistLoaded envf { t with isHandlingAction := true }
        = ({ t with isHandlingAction := true }, true) :=
      ensurePlaylistLoaded_cached hcf hcpf hctf htsf
    simp only [handleSkipForward, hguardf, Bool.false_eq_true, if_false, hens]
    rw [if_neg (by simp), if_pos (by simpa using hidxf)]
    split
    next nextUri hget =>
      simp only [playTrackInContext_fail hpff, Bool.false_eq_true, if_false]
      rw [(skipCounterPhase_nav_all_fail cfg hpff 1 _).1]
      simp
    next hget =>
      rw [(skipCounterPhase_nav_all_fail cfg hpff 1 _).1]
      simp

/-- Evaluation witness for C10 at concrete states: the back skip lands on
cursor 1 despite the failed play; the failed forward replay leaves the
cursor where it started. -/
theorem backSkip_noRollback_witness :
    (handleSkipBack c2env c10s).1.navigationIndex = 1 ∧
    (handleSkipForward CONFIG c2env c10t).1.navigationIndex = 0 := by
  have hpf : ∀ (n : Nat) (u : Nat), c2env.playOk n u = false := fun _ _ => rfl
  have hguard : c10s.isHandlingAction = false := by decide
  have hpos : (0 : Int) < c10s.navigationIndex := by decide
  have hguardf : c10t.isHandlingAction = false := by decide
  have hcf : c2env.contextUri = some "spotify:playlist:x" := rfl
  have hcpf : c10t.currentPlaylistUri = some "spotify:playlist:x" := rfl
  have hctf : c10t.currentPlaylistTracks = some [Track.mk 9 none] := rfl
  have htsf : ([Track.mk 9 none] : List (Track Nat)) ≠ [] := by decide
  have hidxf : c10t.navigationIndex < (c10t.navigationHistory.length : Int) - 1 := by
    decide
  obtain ⟨h1, h2⟩ := backSkip_noRollback CONFIG hpf hguard hpos hpf hguardf hcf hcpf
    hctf htsf hidxf
  exact ⟨h1.trans (by decide), h2.trans (by decide)⟩

theorem mutedInv_ensurePlaylistLoaded (env : SkipEnv α) (s : TSState α)
    (h : MutedInv s) : MutedInv (ensurePlaylistLoaded env s).1 := by
  unfold MutedInv at *
  simpa using h

theorem skipCounterPhase_unmutes (cfg : Config) {env : SkipEnv α} {c : String}
    (hc : env.contextUri = some c) (k : Nat) {s : TSState α} (hminv : MutedInv s) :
    (∀ u, (skipCounterPhase cfg env k s).2.1 = ForwardOutcome.picked u →
      (skipCounterPhase cfg env k s).1.smoothSkipMuted = false) ∧
    ((skipCounterPhase cfg env k s).2.1 = ForwardOutcome.exhausted →
      (skipCounterPhase cfg env k s).1.smoothSkipMuted = false) := by
  by_cases hmod : (s.skipCounter + 1) % cfg.TRUE_SHUFFLE_EVERY = 0
  · rw [skipCounterPhase_shuffle_eq cfg env k s hmod]
    have hm1 : MutedInv ({ s with skipCounter := s.skipCounter + 1 } : TSState α) := hminv
    constructor
    · intro u h
      have := shuffleAttempts_unmutes cfg hc 3 k hm1 (Or.inl ⟨u, h⟩)
      simpa using this
    · intro h
      have := shuffleAttempts_unmutes cfg hc 3 k hm1 (Or.inr ⟨by decide, h⟩)
      simpa using this
  · rw [skipCounterPhase_native_eq cfg env k s hmod]
    exact ⟨fun u h => ForwardOutcome.noConfusion h, fun h => ForwardOutcome.noConfusion h⟩

theorem skipCounterPhase_not_navForward (cfg : Config) (env : SkipEnv α) (k : Nat)
    (s : TSState α) (u : α) :
    (skipCounterPhase cfg env k s).2.1 ≠ ForwardOutcome.navForward u := by
  by_cases hmod : (s.skipCounter + 1) % cfg.TRUE_SHUFFLE_EVERY = 0
  · rw [skipCounterPhase_shuffle_eq cfg env k s hmod]
    intro h
    rcases shuffleAttempts_outcomes cfg env 3 k
        { s with skipCounter := s.skipCounter + 1 } with h1 | h1 | ⟨v, h1⟩ <;>
      · rw [h1] at h
        cases h
  · rw [skipCounterPhase_native_eq cfg env k s hmod]
    exact fun h => ForwardOutcome.noConfusion h

theorem handleSkipForward_unmutes (cfg : Config) {env : SkipEnv α} {c : String}
    {s : TSState α} {ts : List (Track α)}
    (hc : env.contextUri = some c)
    (hcp : s.currentPlaylistUri = some c)
    (hct : s.currentPlaylistTracks = some ts)
    (hts : ts ≠ [])
    (hminv : MutedInv s) :
    (∀ u, (handleSkipForward cfg env s).2.1 = ForwardOutcome.picked u →
      (handleSkipForward cfg env s).1.smoothSkipMuted = false) ∧
    (∀ u, (handleSkipForward cfg env s).2.1 = ForwardOutcome.navForward u →
      (handleSkipForward cfg env s).1.smoothSkipMuted = false) ∧
    ((handleSkipForward cfg env s).2.1 = ForwardOutcome.exhausted →
      (handleSkipForward cfg env s).1.smoothSkipMuted = false) := by
  by_cases hg : s.isHandlingAction = true
  · simp only [handleSkipForward, hg, if_true]
    exact ⟨fun u h => ForwardOutcome.noConfusion h,
      fun u h => ForwardOutcome.noConfusion h,
      fun h => ForwardOutcome.noConfusion h⟩
  · rw [Bool.not_eq_true] at hg
    have hens : ensurePlaylistLoaded env { s with isHandlingAction := true }
        = ({ s with isHandlingAction := true }, true) :=
      ensurePlaylistLoaded_cached hc hcp hct hts
    simp only [handleSkipForward, hg, Bool.false_eq_true, if_false, hens]
    rw [if_neg (by simp)]
    split
    next hidx =>
      split
      next nextUri hget =>
        have hmS : MutedInv ({ s with isHandlingAction := true, playHistory := recordCurrentTrack cfg env.currentTrack s.playHistory, navigationIndex := s.navigationIndex + 1 } : TSState α) :=
          hminv
        cases hok : (playTrackInContext env 0 nextUri { s with isHandlingAction := true, playHistory := recordCurrentTrack cfg env.currentTrack s.playHistory, navigationIndex := s.navigationIndex + 1 }).2.1 with
        | true =>
          simp only [hok, if_true]
          refine ⟨fun u h => ForwardOutcome.noConfusion h, fun u h => ?_,
            fun h => ForwardOutcome.noConfusion h⟩
          simpa using playTrackInContext_unmutes 0 nextUri hc hmS
        | false =>
          simp only [hok, Bool.false_eq_true, if_false]
          refine ⟨fun u h => ?_, fun u h => absurd h (skipCounterPhase_not_navForward cfg env 1 _ u), fun h => ?_⟩
          · refine (skipCounterPhase_unmutes cfg hc 1 ?_).1 u h
            exact mutedInv_playTrackInContext env 0 nextUri hmS
          · refine (skipCounterPhase_unmutes cfg hc 1 ?_).2 h
            exact mutedInv_playTrackInContext env 0 nextUri hmS
      next hget =>
        refine ⟨fun u h => ?_, fun u h => absurd h (skipCounterPhase_not_navForward cfg env 1 _ u), fun h => ?_⟩
        · refine (skipCounterPhase_unmutes cfg hc 1 ?_).1 u h
          exact hminv
        · refine (skipCounterPhase_unmutes cfg hc 1 ?_).2 h
          exact hminv
    next hidx =>
      refine ⟨fun u h => ?_, fun u h => absurd h (skipCounterPhase_not_navForward cfg env 0 _ u), fun h => ?_⟩
      · refine (skipCounterPhase_unmutes cfg hc 0 ?_).1 u h
        exact hminv
      · refine (skipCounterPhase_unmutes cfg hc 0 ?_).2 h
        exact hminv

/-- C2 (amended): a forward skip through the patched entry points mutes
before initiating any transition — the effect trace begins with the mute
command — and restores the saved volume once the system's own play attempt
completes, whether the pick was confirmed (an own pick or a forward
replay succeeded) or every attempt failed; in particular the output is
never left muted once an own pick is accepted.  (The original claim that
the volume is never restored while no pick has been confirmed is false:
playTrackInContext restores it on failure as well.) -/
theorem muteRestore_amended (cfg : Config) {env : SkipEnv α} {c : String}
    {s : TSState α} {ts : List (Track α)}
    (hc : env.contextUri = some c)
    (hcp : s.currentPlaylistUri = some c)
    (hct : s.currentPlaylistTracks = some ts)
    (hts : ts ≠ [])
    (hmut : s.smoothSkipMuted = false) :
    (∃ tr, (onForwardSkipRequest cfg env s).2.2 = Effect.setVolume 0 :: tr) ∧
    (∀ u, (onForwardSkipRequest cfg env s).2.1 = ForwardOutcome.picked u →
      (onForwardSkipRequest cfg env s).1.smoothSkipMuted = false) ∧
    (∀ u, (onForwardSkipRequest cfg env s).2.1 = ForwardOutcome.navForward u →
      (onForwardSkipRequest cfg env s).1.smoothSkipMuted = false) ∧
    ((onForwardSkipRequest cfg env s).2.1 = ForwardOutcome.exhausted →
      (onForwardSkipRequest cfg env s).1.smoothSkipMuted = false) := by
  have hm1 : MutedInv (muteForSkip s).1 :=
    mutedInv_muteForSkip (fun hm => absurd hm (by simp [hmut]))
  have hc1 : (muteForSkip s).1.currentPlaylistUri = some c := by simp [hcp]
  have hc2 : (muteForSkip s).1.currentPlaylistTracks = some ts := by simp [hct]
  obtain ⟨hp, hn, he⟩ := handleSkipForward_unmutes cfg hc hc1 hc2 hts hm1
  simp only [onForwardSkipRequest, muteForSkip_trace]
  exact ⟨⟨(handleSkipForward cfg env (muteForSkip s).1).2.2, rfl⟩,
    fun u h => hp u h, fun u h => hn u h, fun h => he h⟩

/-- C2 (counterexample to the claim as stated): a forward skip on a
single-track playlist whose play command always fails mutes, exhausts all
three attempts without any pick being confirmed, and nevertheless restores
the output volume (mute flag cleared, volume back at its saved value 50). -/
theorem muteRestore_counterexample :
    (onForwardSkipRequest CONFIG c2env c2s).2.1 = ForwardOutcome.exhausted ∧
    (onForwardSkipRequest CONFIG c2env c2s).1.smoothSkipMuted = false ∧
    (onForwardSkipRequest CONFIG c2env c2s).1.volume = 50 := by
  refine ⟨by decide, by decide, by decide⟩

/-- Evaluation witness for the amended C2: a successful pick leaves the
output unmuted, and the trace starts with the mute command. -/
theorem muteRestore_amended_witness :
    (onForwardSkipRequest CONFIG c2wenv c2s).2.1 = ForwardOutcome.picked 9 ∧
    (onForwardSkipRequest CONFIG c2wenv c2s).1.smoothSkipMuted = false := by
  have hc : c2wenv.contextUri = some "spotify:playlist:x" := rfl
  have hcp : c2s.currentPlaylistUri = some "spotify:playlist:x" := rfl
  have hct : c2s.currentPlaylistTracks = some [Track.mk 9 none] := rfl
  have hts : ([Track.mk 9 none] : List (Track Nat)) ≠ [] := by decide
  have hmut : c2s.smoothSkipMuted = false := by decide
  obtain ⟨htr, hp, hn, he⟩ := muteRestore_amended CONFIG hc hcp hct hts hmut
  have hpick : (onForwardSkipRequest CONFIG c2wenv c2s).2.1
      = ForwardOutcome.picked 9 := by decide
  exact ⟨hpick, hp 9 hpick⟩

theorem restoreVolume_spec (s2 : TSState α) (v : ℚ) (hm : s2.smoothSkipMuted = true)
    (hv : s2.savedVolume = some v) :
    (restoreVolume s2).1.volume = v ∧
    (restoreVolume s2).1.smoothSkipMuted = false ∧
    (restoreVolume s2).2 = [Effect.setVolume v] ∧
    (restoreVolume s2).1.navigationHistory = s2.navigationHistory ∧
    (restoreVolume s2).1.playHistory = s2.playHistory := by
  simp [restoreVolume, hv, hm]

/-- C6: a songchange that arrives with the pending-native flag set and a
playing track: when the track's uri lies within the first NO_REPEAT_WINDOW
entries of play history, the system re-issues a muted native pass-through
skip — the pending-native flag stays set, the trace is the mute command
followed by the native skip, the saved volume is untouched and the output
remains muted, with both histories unchanged; otherwise it accepts the
pick — pushes the uri onto navigation history, records it into play
history, and restores the saved output volume. -/
theorem songchange_nativeValidation (cfg : Config) {env : SongEnv α}
    {s : TSState α} {u : α} {v : ℚ}
    (hguard : s.isHandlingAction = false)
    (hnp : s.isNativePassSkip = true)
    (hcur : env.currentUri = some u)
    (hmut : s.smoothSkipMuted = true)
    (hsv : s.savedVolume = some v) :
    (u ∈ recentUriList cfg s.playHistory →
      (onSongChange cfg env s).1.isNativePassSkip = true ∧
      (onSongChange cfg env s).2.2 = [Effect.setVolume 0, Effect.nativeSkip] ∧
      (onSongChange cfg env s).1.smoothSkipMuted = true ∧
      (onSongChange cfg env s).1.savedVolume = some v ∧
      (onSongChange cfg env s).1.navigationHistory = s.navigationHistory ∧
      (onSongChange cfg env s).1.playHistory = s.playHistory) ∧
    (u ∉ recentUriList cfg s.playHistory →
      (onSongChange cfg env s).1.navigationHistory
        = (pushToNavigation cfg (some u) s).navigationHistory ∧
      (onSongChange cfg env s).1.playHistory
        = recordCurrentTrack cfg (some (u, env.currentArtistUri)) s.playHistory ∧
      (onSongChange cfg env s).1.smoothSkipMuted = false ∧
      (onSongChange cfg env s).1.volume = v ∧
      (onSongChange cfg env s).2.2 = [Effect.setVolume v]) := by
  simp only [onSongChange, hguard, hnp, Bool.false_eq_true, if_false, if_true, hcur]
  constructor
  · intro hmem
    rw [if_pos hmem]
    refine ⟨by simp, by simp, by simp [hmut], by simp [muteForSkip, hmut, hsv], by simp, by simp⟩
  · intro hmem
    rw [if_neg hmem]
    refine ⟨?_, ?_, ?_, ?_, ?_⟩
    · exact ((restoreVolume_spec _ v (by simp [hmut]) (by simp [hsv])).2.2.2.1).trans
        (by simp [pushToNavigation, pushNavList])
    · exact ((restoreVolume_spec _ v (by simp [hmut]) (by simp [hsv])).2.2.2.2).trans
        (by simp)
    · exact (restoreVolume_spec _ v (by simp [hmut]) (by simp [hsv])).2.1
    · exact (restoreVolume_spec _ v (by simp [hmut]) (by simp [hsv])).1
    · exact (restoreVolume_spec _ v (by simp [hmut]) (by simp [hsv])).2.2.1

/-- Evaluation witness for C6: a pending native pick colliding with the
no-repeat window is rejected — the flag stays set, the trace is
mute-then-native-skip, and the saved volume is untouched. -/
theorem songchange_nativeValidation_witness :
    (onSongChange CONFIG c6env c6s).1.isNativePassSkip = true ∧
    (onSongChange CONFIG c6env c6s).2.2 = [Effect.setVolume 0, Effect.nativeSkip] ∧
    (onSongChange CONFIG c6env c6s).1.savedVolume = some 1 := by
  have hguard : c6s.isHandlingAction = false := by decide
  have hnp : c6s.isNativePassSkip = true := by decide
  have hcur : c6env.currentUri = some 3 := rfl
  have hmut : c6s.smoothSkipMuted = true := by decide
  have hsv : c6s.savedVolume = some 1 := by decide
  obtain ⟨hrej, hacc⟩ := songchange_nativeValidation CONFIG hguard hnp hcur hmut hsv
  obtain ⟨h1, h2, h3, h4, h5, h6⟩ := hrej (by decide)
  exact ⟨h1, h2, h4⟩

end TrueShuffle